import Mathlib

/-!
# Verification of the Sugarbox snapshot-chain state engine

Shallow embedding of the `SugarboxEngine` class (src/unnamed/part_011) and of
the supporting version utilities (src/src/utils/version.ts).  JavaScript
objects with string keys whose values may be `undefined` are modelled as
functions `String → Option (SBVal V)`: `none` is `undefined`/absent, and
`null` is the explicit value `SBVal.vnull`.  The engine's cursor is an `Int`
so that out-of-range intermediate values produced by the code are
representable.  The materialization cache is not modelled: it is an optional
collaborator and the engine's semantics are specified to be cache-free.
-/

namespace Sugarbox

/-- A JavaScript runtime value stored in the story state.  `vnull` is the
JS `null` (a first-class value in the fold), numbers and strings cover the
metadata fields `__seed` and `__id`, and `user` embeds arbitrary
story-specific values. -/
inductive SBVal (V : Type) where
  | vnull : SBVal V
  | num : Int → SBVal V
  | str : String → SBVal V
  | user : V → SBVal V
deriving DecidableEq

/-- A sparse partial record: a JS object where a missing key (or a key that
is present with value `undefined`) is `none`. Used both for snapshots and
for (possibly partial) state objects, mirroring `SnapshotWithMetadata` and
`StateWithMetadata` in the source. -/
def Snap (V : Type) : Type := String → Option (SBVal V)

/-- The empty snapshot `{}`. -/
def emptySnap (V : Type) : Snap V := fun _ => none

/-- One step of the materialization fold of `#getStateAtIndex`: for each key
present in the partial update with a value that is not `undefined`, the
update wins; otherwise the accumulated state's value is kept. -/
def applySnap {V : Type} (s p : Snap V) : Snap V :=
  fun k => match p k with
    | some v => some v
    | none => s k

/-- One step of the combining loop of `#mergeSnapshots`: keys of the later
snapshot that are not `undefined` overwrite the combined snapshot. -/
def combineSnap {V : Type} (c p : Snap V) : Snap V :=
  fun k => match p k with
    | some v => some v
    | none => c k

/-- The mutable state of a `SugarboxEngine` instance that the claims are
about: `#initialState`, `#stateSnapshots`, `#index` and the passage map
(of which only the key set matters for navigation). -/
structure Engine (V : Type) where
  initialState : Snap V
  snapshots : List (Snap V)
  index : Int
  passages : List String

/-- `#getSnapshotAtIndex`, totalized: the source throws a `RangeError` when
the slot does not exist; all uses below are at indices that do exist, so the
out-of-range result is the empty snapshot. -/
def getSnapshotAtIndexD {V : Type} (e : Engine V) (i : Int) : Snap V :=
  if h : 0 ≤ i ∧ i.toNat < e.snapshots.length then
    e.snapshots.get ⟨i.toNat, h.2⟩
  else emptySnap V

/-- `#getStateAtIndex`: clamp the index into `[0, length-1]`, then fold the
initial state with snapshots `0..effectiveIndex`, skipping `undefined`
values (`none`). -/
def getStateAtIndex {V : Type} (e : Engine V) (idx : Int) : Snap V :=
  List.foldl applySnap e.initialState
    (e.snapshots.take ((min (max 0 idx) ((e.snapshots.length : Int) - 1)) + 1).toNat)

/-- The loop body of `#mergeSnapshots`: walk the snapshot array with index
`i`; snapshots inside `[lower, upper]` are folded into `comb` (pushing the
combined snapshot when `i = upper`), snapshots outside are pushed as-is. -/
def mergeLoop {V : Type} :
    List (Snap V) → Nat → Nat → Nat → Snap V → List (Snap V) → List (Snap V)
  | [], _, _, _, _, acc => acc
  | s :: rest, i, lo, hi, comb, acc =>
    if lo ≤ i ∧ i ≤ hi then
      mergeLoop rest (i + 1) lo hi (combineSnap comb s)
        (if i = hi then acc ++ [combineSnap comb s] else acc)
    else
      mergeLoop rest (i + 1) lo hi comb (acc ++ [s])

/-- `#mergeSnapshots(lowerIndex, upperIndex)`: no-op when fewer than two
snapshots exist or `upperIndex < lowerIndex`; otherwise clamp `upperIndex`
to the last index, rebuild the array with the range `[lower, upper]`
collapsed into one combined snapshot, and unconditionally decrement the
cursor by `upper - lower` (the number of snapshots removed). -/
def mergeSnapshots {V : Type} (e : Engine V) (lower upper : Nat) : Engine V :=
  if e.snapshots.length - 1 < 1 ∨ upper < lower then e
  else
    { e with
      snapshots :=
        mergeLoop e.snapshots 0 lower (min upper (e.snapshots.length - 1)) (emptySnap V) []
      index := e.index - ((min upper (e.snapshots.length - 1) - lower : Nat) : Int) }

/-- The JS assignment `this.#stateSnapshots[i] = v`: overwrite an existing
slot, append when `i` equals the length, and leave the array untouched for a
negative `i` (JS stores a negative index as a plain object property that
the materialization loop never reads).  An `i` beyond the length would
create a sparse array; no operation modelled here can produce it. -/
def writeSlot {V : Type} (l : List (Snap V)) (i : Int) (v : Snap V) : List (Snap V) :=
  if i < 0 then l
  else if i.toNat < l.length then l.set i.toNat v
  else if i.toNat = l.length then l ++ [v]
  else l

/-- Mutating one key of the snapshot object sitting at slot `i` (the
reference returned by `#addNewSnapshot`/`#getSnapshotAtIndex`).  For a
negative slot the mutated object is detached from the history, so the list
is unchanged. -/
def stampAt {V : Type} (l : List (Snap V)) (i : Int) (key : String) (v : Option (SBVal V)) :
    List (Snap V) :=
  if h : 0 ≤ i ∧ i.toNat < l.length then
    l.set i.toNat (fun k => if k = key then v else (l.get ⟨i.toNat, h.2⟩) k)
  else l

/-- The `regenSeed` configuration policy. -/
inductive RegenSeed where
  | eachCall
  | passage
  | fixedSeed
deriving DecidableEq

/-- The part of `SugarBoxConfig` that the verified operations consult. -/
structure Config where
  maxStateCount : Nat
  stateMergeCount : Nat
  regenSeed : RegenSeed
  saveSlots : Nat

/-- Model of the external `@iceman8911/tiny-prng` generator, which is not
part of this repository.  Modelled from the spec: a deterministic generator
constructed from the seed value found in the state; `next` is the integer
drawn by `PRNG.next()` (stored as the new seed on navigation), `floatVal`
is an opaque encoding of the float drawn by `PRNG.nextFloat()`, and
`floatSeed` is the generator's internal seed after that draw.  All three
are functions of the seed value read from the materialized state. -/
structure PRNGModel (V : Type) where
  next : Option (SBVal V) → Int
  floatVal : Option (SBVal V) → Int
  floatSeed : Option (SBVal V) → Int

/-- Errors thrown by the navigation/cursor operations. -/
inductive NavErr where
  | unknownPassage
  | indexOutOfBounds
deriving DecidableEq

/-- The `:stateChange` event payload (`oldState`/`newState`). -/
structure StateChangeEvent (V : Type) where
  oldState : Snap V
  newState : Snap V

/-- `#setIndex(val)`: throw when `val` is outside `[0, snapshotCount-1]`,
otherwise move the cursor and emit a `:stateChange` event whose payload is
the snapshot at the old cursor and the snapshot at the new cursor. -/
def setIndexOp {V : Type} (e : Engine V) (val : Int) :
    Except NavErr (Engine V × StateChangeEvent V) :=
  if val < 0 ∨ val ≥ (e.snapshots.length : Int) then .error .indexOutOfBounds
  else
    .ok ({ e with index := val },
      { oldState := getSnapshotAtIndexD e e.index
        newState := getSnapshotAtIndexD e val })

/-- `forward(step)`: clamp to the last snapshot index. -/
def forward {V : Type} (e : Engine V) (step : Int) :
    Except NavErr (Engine V × StateChangeEvent V) :=
  if e.index + step ≥ (e.snapshots.length : Int) then
    setIndexOp e ((e.snapshots.length : Int) - 1)
  else setIndexOp e (e.index + step)

/-- `backward(step)`: clamp to index 0. -/
def backward {V : Type} (e : Engine V) (step : Int) :
    Except NavErr (Engine V × StateChangeEvent V) :=
  if e.index - step < 0 then setIndexOp e 0 else setIndexOp e (e.index - step)

/-- The capacity check at the top of `#addNewSnapshot`: when
`snapshotCount >= maxStateCount`, merge the range `[0, stateMergeCount]`
first. -/
def mergeIfAtCapacity {V : Type} (cfg : Config) (e : Engine V) : Engine V :=
  if e.snapshots.length ≥ cfg.maxStateCount then
    mergeSnapshots e 0 cfg.stateMergeCount
  else e

/-- `#addNewSnapshot`: after the capacity check, write a brand-new empty
snapshot at `index + 1` (overwriting any existing snapshot there; the
stages after this one address the new snapshot as slot `index + 1`, which
no stage changes until `#setIndex` runs). -/
def addNewSnapshot {V : Type} (cfg : Config) (e : Engine V) : Engine V :=
  { mergeIfAtCapacity cfg e with
    snapshots :=
      writeSlot (mergeIfAtCapacity cfg e).snapshots
        ((mergeIfAtCapacity cfg e).index + 1) (emptySnap V) }

/-- `navigateTo`, id-stamping step: write `__id` into the new snapshot only
when it differs from the currently resolved id. -/
def stampNewId {V : Type} [DecidableEq V] (passageId : String) (e : Engine V) : Engine V :=
  if getStateAtIndex e e.index "__id" ≠ some (.str passageId) then
    { e with snapshots := stampAt e.snapshots (e.index + 1) "__id" (some (.str passageId)) }
  else e

/-- `navigateTo`, seed-stamping step: under `regenSeed = "passage"`, write a
freshly advanced PRNG seed into the new snapshot. -/
def stampNewSeed {V : Type} (cfg : Config) (P : PRNGModel V) (e : Engine V) : Engine V :=
  if cfg.regenSeed = .passage then
    { e with
      snapshots :=
        stampAt e.snapshots (e.index + 1) "__seed"
          (some (.num (P.next (getStateAtIndex e e.index "__seed")))) }
  else e

/-- The `#setIndex(this.#index + 1)` call closing `navigateTo`: throws
(keeping the mutations made so far) when the target is out of bounds,
otherwise moves the cursor forward by exactly one. -/
def navFinish {V : Type} (e4 : Engine V) : Engine V × Option NavErr :=
  if e4.index + 1 < 0 ∨ e4.index + 1 ≥ (e4.snapshots.length : Int) then
    (e4, some .indexOutOfBounds)
  else ({ e4 with index := e4.index + 1 }, none)

/-- `navigateTo(passageId)`.  Returns the engine state reached together
with the error, if any: when `#setIndex` throws, the snapshot-array
mutations performed before the throw persist, exactly as in the source.
Steps, in source order: validate the passage id; `#addNewSnapshot` (merge
when at capacity, then write a fresh empty snapshot at `index+1`); stamp
`__id` when it differs from the currently resolved id; stamp a freshly
advanced `__seed` under the `"passage"` policy; `#setIndex(index+1)`. -/
def navigateTo {V : Type} [DecidableEq V] (cfg : Config) (P : PRNGModel V) (e : Engine V)
    (passageId : String) : Engine V × Option NavErr :=
  if passageId ∉ e.passages then (e, some .unknownPassage)
  else navFinish (stampNewSeed cfg P (stampNewId passageId (addNewSnapshot cfg e)))

/-- The `random` getter: build a generator from the `__seed` value resolved
at the cursor, draw one float and, under `regenSeed = "eachCall"`, write the
generator's advanced seed back into the snapshot at the cursor.  Returns
the new engine state and the drawn value. -/
def randomRead {V : Type} (cfg : Config) (P : PRNGModel V) (e : Engine V) :
    Engine V × Int :=
  let s := getStateAtIndex e e.index "__seed"
  let value := P.floatVal s
  if cfg.regenSeed = .eachCall then
    ({ e with snapshots := stampAt e.snapshots e.index "__seed" (some (.num (P.floatSeed s))) },
      value)
  else (e, value)

/-- `#rewriteState(state)`: replace `#initialState` and empty every
snapshot (the array keeps its length; each entry becomes `{}`). -/
def rewriteState {V : Type} (e : Engine V) (st : Snap V) : Engine V :=
  { e with initialState := st, snapshots := e.snapshots.map (fun _ => emptySnap V) }

/-- The observable effect of the caller-supplied producer in `setVars`:
either it mutated the proxy in place, leaving the snapshot at the cursor
holding `newSnap` (incremental mode), or it returned a (possibly partial)
replacement object `repl` (replacement mode). -/
inductive ProducerAction (V : Type) where
  | incremental (newSnap : Snap V)
  | replace (repl : Snap V)

/-- `setVars(producer)`.  In incremental mode the proxy mutations leave the
cursor's snapshot with the producer's final content.  In replacement mode
`#rewriteState` installs `{...replacement, __id: passageId, __seed: seed}`
as the new initial state and empties all snapshots.  Afterwards the
`:stateChange` event is emitted with `makeImmutable(newState)` passed for
BOTH payload fields, exactly as in the source (the locally computed
`oldState` object is never used).  Returns `none` when the cursor points at
a slot that does not exist (`#getSnapshotAtIndex` throws). -/
def setVars {V : Type} (e : Engine V) (action : ProducerAction V) :
    Option (Engine V × StateChangeEvent V) :=
  if 0 ≤ e.index ∧ e.index.toNat < e.snapshots.length then
    let e' := match action with
      | .incremental newSnap =>
        { e with snapshots := e.snapshots.set e.index.toNat newSnap }
      | .replace repl =>
        rewriteState e (fun k =>
          if k = "__id" then getStateAtIndex e e.index "__id"
          else if k = "__seed" then getStateAtIndex e e.index "__seed"
          else repl k)
    let newState := getSnapshotAtIndexD e' e'.index
    some (e', { oldState := newState, newState := newState })
  else none

/-- A semantic version `major.minor.patch`.  The source compares versions
either field-wise (`isSaveCompatibleWithEngine`) or through their string
rendering `major.minor.patch`; since each numeric triple renders to a
distinct string, string equality is triple equality. -/
structure Version where
  major : Nat
  minor : Nat
  patch : Nat
deriving DecidableEq

/-- The result of `isSaveCompatibleWithEngine`. -/
inductive Compat where
  | compatible
  | outdatedSave
  | newerSave
deriving DecidableEq

/-- The save-version compatibility mode. -/
inductive CompatMode where
  | strict
  | liberal
deriving DecidableEq

/-- `isSaveCompatibleWithEngine` (src/src/utils/version.ts): compare majors
first, then minors according to the mode; patch is ignored. -/
def isSaveCompatibleWithEngine (saveVersion engineVersion : Version)
    (mode : CompatMode) : Compat :=
  if saveVersion.major > engineVersion.major then .newerSave
  else if saveVersion.major < engineVersion.major then .outdatedSave
  else match mode with
    | .strict =>
      if saveVersion.minor > engineVersion.minor then .newerSave
      else if saveVersion.minor < engineVersion.minor then .outdatedSave
      else .compatible
    | .liberal =>
      if saveVersion.minor > engineVersion.minor then .newerSave else .compatible

/-- The persisted save record fields consumed by `loadSaveFromData`. -/
structure SaveData (V : Type) where
  intialState : Snap V
  snapshots : List (Snap V)
  storyIndex : Int
  saveVersion : Version

/-- A registered migration step: the `to` version together with the
`migrater` function; `none` models the migration function throwing. -/
structure MigStep (V : Type) where
  toVersion : Version
  migrater : Snap V → Option (Snap V)

/-- The `#saveMigrationMap`: the step registered for a given version, if
any. -/
def MigMap (V : Type) : Type := Version → Option (MigStep V)

/-- Failures of the migration loop.  `fuelOut` is an artifact of the fuel
parameter: the source's `while` loop would spin forever on a cyclic
migration map, a case no finite behavior exhibits. -/
inductive MigErr where
  | missingMigrator (version : Version)
  | migraterThrew
  | fuelOut
deriving DecidableEq

/-- The migration `while` loop of the `outdatedSave` branch: starting from
the save's version, look up the step registered for the current version
(failing with a "missing migrator" error when there is none), apply its
`migrater` to the accumulated state — initially the temporarily installed
save's materialized state — and advance to the step's `to` version, until
the tracked version equals the engine version. -/
def migLoop {V : Type} (map : MigMap V) (engineVersion : Version) (base : Snap V) :
    Nat → Version → Option (Snap V) → Except MigErr (Option (Snap V))
  | 0, _, _ => .error .fuelOut
  | fuel + 1, v, acc =>
    if v = engineVersion then .ok acc
    else match map v with
      | none => .error (.missingMigrator v)
      | some step =>
        match step.migrater (acc.getD base) with
        | none => .error .migraterThrew
        | some migrated => migLoop map engineVersion base fuel step.toVersion (some migrated)

/-- Failures of `loadSaveFromData`. -/
inductive LoadErr where
  | newerSave
  | migration (e : MigErr)
  | nullMigration
deriving DecidableEq

/-- Installing a save's data over the engine state: `#initialState`,
`#stateSnapshots` and `#index` are replaced by the save's fields (done
directly for a compatible save, temporarily for an outdated one). -/
def installSave {V : Type} (e : Engine V) (save : SaveData V) : Engine V :=
  { e with
    initialState := save.intialState
    snapshots := save.snapshots
    index := save.storyIndex }

/-- The `catch` block of the `outdatedSave` branch: the three originals
captured before the temporary install are written back. -/
def rollbackFailedLoad {V : Type} (e : Engine V) (save : SaveData V) : Engine V :=
  { installSave e save with
    initialState := e.initialState
    snapshots := e.snapshots
    index := e.index }

/-- `loadSaveFromData(save)`.  Returns the engine state after the call and
the error, if any.  Compatible saves are installed directly; outdated saves
are temporarily installed, migrated through `migLoop`, and on success the
migrated object becomes the new initial state via `#rewriteState`; on any
failure the three captured originals (`#initialState`, `#stateSnapshots`,
`#index`) are written back and the error is rethrown.  Newer saves are
rejected before any mutation. -/
def loadSaveFromData {V : Type} (map : MigMap V) (engineVersion : Version)
    (mode : CompatMode) (fuel : Nat) (e : Engine V) (save : SaveData V) :
    Engine V × Option LoadErr :=
  match isSaveCompatibleWithEngine save.saveVersion engineVersion mode with
  | .compatible => (installSave e save, none)
  | .newerSave => (e, some .newerSave)
  | .outdatedSave =>
    match migLoop map engineVersion
        (getStateAtIndex (installSave e save) (installSave e save).index) fuel
        save.saveVersion none with
    | .ok (some migrated) => (rewriteState (installSave e save) migrated, none)
    | .ok none => (rollbackFailedLoad e save, some .nullMigration)
    | .error me => (rollbackFailedLoad e save, some (.migration me))

/-- Storage keys derived from a save-slot number, scoped by engine name. -/
inductive SaveKey where
  | autosave (engineName : String)
  | slot (engineName : String) (n : Int)
deriving DecidableEq

/-- Errors thrown by the save-slot layer. -/
inductive SlotErr where
  | invalidSlot (n : Int)
deriving DecidableEq

/-- `#assertSaveSlotIsValid(saveSlot)`: a slot is valid when
`MINIMUM_SAVE_SLOT_INDEX ≤ saveSlot < saveSlots`, with
`MINIMUM_SAVE_SLOT_INDEX = 0`. -/
def assertSaveSlotIsValid (cfg : Config) (saveSlot : Int) : Except SlotErr Unit :=
  if saveSlot < 0 ∨ saveSlot ≥ (cfg.saveSlots : Int) then .error (.invalidSlot saveSlot)
  else .ok ()

/-- `#getSaveKeyFromSaveSlotNumber(saveSlot?)`: the JS guard `!saveSlot` is
true both for `undefined` (`none`) and for the number `0`, so both produce
the autosave key without running the slot validator; only a non-zero slot
is validated and mapped to its numbered key. -/
def getSaveKeyFromSaveSlotNumber (cfg : Config) (engineName : String)
    (saveSlot : Option Int) : Except SlotErr SaveKey :=
  match saveSlot with
  | none => .ok (.autosave engineName)
  | some n =>
    if n = 0 then .ok (.autosave engineName)
    else
      match assertSaveSlotIsValid cfg n with
      | .error err => .error err
      | .ok _ => .ok (.slot engineName n)

/-- The engine produced by the private constructor: the initial state is the
user's variables with `__id` (start passage) and `__seed` (initial seed)
spread on top, the snapshot array is `[{}]`, and the cursor is 0. -/
def initEngine {V : Type} (vars : Snap V) (startId : String) (initialSeed : Int)
    (otherPassages : List String) : Engine V :=
  { initialState := fun k =>
      if k = "__id" then some (.str startId)
      else if k = "__seed" then some (.num initialSeed)
      else vars k
    snapshots := [emptySnap V]
    index := 0
    passages := startId :: otherPassages }

/-- Run a sequence of `navigateTo` calls, keeping the engine state each call
leaves behind (a failed call leaves the state it had mutated so far). -/
def runNavTrace {V : Type} [DecidableEq V] (cfg : Config) (P : PRNGModel V)
    (e : Engine V) : List String → Engine V
  | [] => e
  | p :: ps => runNavTrace cfg P (navigateTo cfg P e p).1 ps

/-- One public operation of the history/PRNG API, for reasoning about
operation traces. -/
inductive EngineOp where
  | nav (passageId : String)
  | randRead
  | fwd (step : Int)
  | bwd (step : Int)

/-- Run one operation, keeping the resulting engine state (clamped cursor
moves that still throw leave the state unchanged, as in the source, where
`#setIndex` validates before mutating). -/
def runOp {V : Type} [DecidableEq V] (cfg : Config) (P : PRNGModel V)
    (e : Engine V) : EngineOp → Engine V
  | .nav pid => (navigateTo cfg P e pid).1
  | .randRead => (randomRead cfg P e).1
  | .fwd n => match forward e n with | .ok (e', _) => e' | .error _ => e
  | .bwd n => match backward e n with | .ok (e', _) => e' | .error _ => e

/-- Run a list of operations in order. -/
def runOps {V : Type} [DecidableEq V] (cfg : Config) (P : PRNGModel V)
    (e : Engine V) (ops : List EngineOp) : Engine V :=
  ops.foldl (runOp cfg P) e

/-- The migration map holding exactly the two registered single-step
migrations `0.1.0 → 0.2.0` (function `f`) and `0.2.0 → 0.3.0`
(function `g`), both total (they never throw). -/
def twoStepMap {V : Type} (f g : Snap V → Snap V) : MigMap V :=
  fun v =>
    if v = ⟨0, 1, 0⟩ then some ⟨⟨0, 2, 0⟩, fun s => some (f s)⟩
    else if v = ⟨0, 2, 0⟩ then some ⟨⟨0, 3, 0⟩, fun s => some (g s)⟩
    else none

/-- Invariant of the `regenSeed = false` policy: the initial state carries
the configured seed and no snapshot ever stores a `__seed` key. -/
def SeedFixedInv {V : Type} (seed0 : Int) (e : Engine V) : Prop :=
  e.initialState "__seed" = some (.num seed0) ∧ ∀ p ∈ e.snapshots, p "__seed" = none

/-! ### Concrete instances used by witnesses and counterexamples -/

/-- A concrete PRNG model instance. -/
def samplePrng : PRNGModel Unit :=
  { next := fun _ => 42, floatVal := fun _ => 7, floatSeed := fun _ => 43 }

/-- A PRNG model whose integer draw always differs from a numeric seed and
whose float encoding separates the two seeds involved. -/
def movingPrng : PRNGModel Unit :=
  { next := fun s => match s with | some (.num n) => n + 1 | _ => 0
    floatVal := fun s => match s with | some (.num n) => 2 * n | _ => 1
    floatSeed := fun s => match s with | some (.num n) => n + 5 | _ => 0 }

/-- A configuration whose capacity is never reached in the sample traces. -/
def roomyConfig : Config :=
  { maxStateCount := 100, stateMergeCount := 1, regenSeed := .fixedSeed, saveSlots := 20 }

/-- `roomyConfig` with the `"passage"` seed policy. -/
def passageConfig : Config :=
  { maxStateCount := 100, stateMergeCount := 1, regenSeed := .passage, saveSlots := 20 }

/-- `roomyConfig` with the `"eachCall"` seed policy. -/
def eachCallConfig : Config :=
  { maxStateCount := 100, stateMergeCount := 1, regenSeed := .eachCall, saveSlots := 20 }

/-- A configuration with `maxStateCount = 1`, accepted by the constructor
(only `saveSlots` is validated). -/
def tinyConfig : Config :=
  { maxStateCount := 1, stateMergeCount := 1, regenSeed := .fixedSeed, saveSlots := 20 }

/-- A well-formed small configuration (`maxStateCount = 2`,
`stateMergeCount = 1`). -/
def smallConfig : Config :=
  { maxStateCount := 2, stateMergeCount := 1, regenSeed := .fixedSeed, saveSlots := 20 }

/-- A sample engine with four snapshots, used to witness merge claims:
`gold` is set at index 1, cleared to `null` at index 2, and `gems` is set
at index 3. -/
def fourSnapEngine : Engine Unit :=
  { initialState := fun k =>
      if k = "__id" then some (.str "Start")
      else if k = "__seed" then some (.num 5)
      else if k = "gold" then some (.num 0)
      else none
    snapshots := [emptySnap Unit,
      fun k => if k = "gold" then some (.num 1) else none,
      fun k => if k = "gold" then some .vnull else none,
      fun k => if k = "gems" then some (.num 7) else none]
    index := 3
    passages := ["Start"] }

/-- An engine with three snapshots and the cursor at index 0, used to show
what a merge of a range entirely after the cursor does to the cursor. -/
def cursorZeroEngine : Engine Unit :=
  { initialState := fun _ => none
    snapshots := [emptySnap Unit, emptySnap Unit, emptySnap Unit]
    index := 0
    passages := [] }

/-- A fresh engine knowing passages `Start`, `A`, `B`, `C`. -/
def fourPassageEngine : Engine Unit :=
  initEngine (fun _ => none) "Start" 5 ["A", "B", "C"]

/-- The engine after `navigateTo(A)`, `navigateTo(B)`, `backward(2)` from
`fourPassageEngine`: three snapshots, cursor back at 0. -/
def rewoundEngine : Engine Unit :=
  runOps roomyConfig samplePrng fourPassageEngine [.nav "A", .nav "B", .bwd 2]

/-- `rewoundEngine` after `navigateTo(C)`: the cursor is at 1 and the old
`B` snapshot still sits at index 2. -/
def divergedEngine : Engine Unit :=
  (navigateTo roomyConfig samplePrng rewoundEngine "C").1

/-- A fresh engine whose variables hold `gold = 123`. -/
def goldEngine : Engine Unit :=
  initEngine (fun k => if k = "gold" then some (.num 123) else none) "Start" 5 []

/-- A replacement object mentioning only `gems`. -/
def gemsOnlySnap : Snap Unit := fun k => if k = "gems" then some (.num 21) else none

/-- A producer effect that sets `gold` to 5 in the cursor's snapshot. -/
def goldFiveSnap : Snap Unit := fun k => if k = "gold" then some (.num 5) else none

/-- The engine/event pair returned by `setVars` for the `gold := 5`
incremental mutation of `goldEngine` (the call succeeds; the default is
never used). -/
def goldFiveResult : Engine Unit × StateChangeEvent Unit :=
  (setVars goldEngine (.incremental goldFiveSnap)).getD
    (goldEngine, ⟨emptySnap Unit, emptySnap Unit⟩)

/-- A migration map registering only `0.1.0 → 0.2.0`: the chain towards
`0.3.0` gets stuck at `0.2.0`. -/
def stuckMap : MigMap Unit :=
  fun v => if v = ⟨0, 1, 0⟩ then some ⟨⟨0, 2, 0⟩, fun s => some s⟩ else none

/-- A save tagged `0.1.0` holding one empty snapshot. -/
def oldSave : SaveData Unit :=
  { intialState := fun _ => none
    snapshots := [emptySnap Unit]
    storyIndex := 0
    saveVersion := ⟨0, 1, 0⟩ }

/-- The engine attempting the loads in the migration witnesses. -/
def loaderEngine : Engine Unit :=
  initEngine (fun k => if k = "gold" then some (.num 1) else none) "Start" 9 []

/-- A sample migration step function: sets `migratedA`. -/
def migA (s : Snap Unit) : Snap Unit :=
  fun k => if k = "migratedA" then some (.num 1) else s k

/-- A sample migration step function: sets `migratedB`. -/
def migB (s : Snap Unit) : Snap Unit :=
  fun k => if k = "migratedB" then some (.num 2) else s k

/-! ## Fold algebra: applying a combined snapshot equals applying the parts -/

lemma applySnap_emptySnap {V : Type} (s : Snap V) : applySnap s (emptySnap V) = s :=
  funext fun _ => rfl

lemma applySnap_key {V : Type} (s p : Snap V) (k : String) :
    applySnap s p k = match p k with | some v => some v | none => s k := rfl

lemma combineSnap_key {V : Type} (c p : Snap V) (k : String) :
    combineSnap c p k = match p k with | some v => some v | none => c k := rfl

lemma applySnap_combineSnap {V : Type} (s c p : Snap V) :
    applySnap (applySnap s c) p = applySnap s (combineSnap c p) := by
  funext k
  unfold applySnap combineSnap
  cases p k <;> rfl

lemma foldl_applySnap_combineSnap {V : Type} (l : List (Snap V)) (s c : Snap V) :
    List.foldl applySnap (applySnap s c) l = applySnap s (List.foldl combineSnap c l) := by
  induction l generalizing c with
  | nil => rfl
  | cons p t ih =>
    simp only [List.foldl_cons]
    rw [applySnap_combineSnap, ih]

/-! ## Structure of the `#mergeSnapshots` rebuild loop -/

lemma mergeLoop_after {V : Type} (l : List (Snap V)) :
    ∀ (i lo hi : Nat) (comb : Snap V) (acc : List (Snap V)), hi < i →
      mergeLoop l i lo hi comb acc = acc ++ l := by
  induction l with
  | nil => intro i lo hi comb acc _; simp [mergeLoop]
  | cons s rest ih =>
    intro i lo hi comb acc hlt
    unfold mergeLoop
    rw [if_neg (by omega)]
    rw [ih (i + 1) lo hi comb (acc ++ [s]) (by omega)]
    simp

lemma mergeLoop_in {V : Type} (l : List (Snap V)) :
    ∀ (i lo hi : Nat) (comb : Snap V) (acc : List (Snap V)),
      lo ≤ i → i ≤ hi → hi - i < l.length →
      mergeLoop l i lo hi comb acc =
        acc ++ [List.foldl combineSnap comb (l.take (hi - i + 1))] ++ l.drop (hi - i + 1) := by
  induction l with
  | nil => intro i lo hi comb acc _ _ hlen; simp at hlen
  | cons s rest ih =>
    intro i lo hi comb acc hloi hihi hlen
    unfold mergeLoop
    rw [if_pos ⟨hloi, hihi⟩]
    by_cases heq : i = hi
    · subst heq
      rw [if_pos rfl]
      rw [mergeLoop_after rest (i + 1) lo i (combineSnap comb s) (acc ++ [combineSnap comb s]) (by omega)]
      simp [Nat.sub_self]
    · rw [if_neg heq]
      have hm : hi - i = (hi - (i + 1)) + 1 := by omega
      rw [ih (i + 1) lo hi (combineSnap comb s) acc (by omega) (by omega) (by simp at hlen; omega)]
      rw [hm]
      simp [List.take_succ_cons, List.drop_succ_cons]

lemma mergeLoop_before {V : Type} (l : List (Snap V)) :
    ∀ (i lo hi : Nat) (comb : Snap V) (acc : List (Snap V)),
      i ≤ lo → lo ≤ hi → hi - i < l.length →
      mergeLoop l i lo hi comb acc =
        acc ++ l.take (lo - i) ++
          [List.foldl combineSnap comb ((l.drop (lo - i)).take (hi - lo + 1))] ++
          l.drop (hi - i + 1) := by
  induction l with
  | nil => intro i lo hi comb acc _ hlohi hlen; simp at hlen
  | cons s rest ih =>
    intro i lo hi comb acc hilo hlohi hlen
    by_cases heq : i = lo
    · subst heq
      rw [mergeLoop_in (s :: rest) i i hi comb acc (le_refl i) (by omega) hlen]
      simp
    · have hi_lt : i < lo := by omega
      unfold mergeLoop
      rw [if_neg (by omega)]
      rw [ih (i + 1) lo hi comb (acc ++ [s]) (by omega) hlohi (by simp at hlen; omega)]
      have h1 : lo - i = (lo - (i + 1)) + 1 := by omega
      have h2 : hi - i = (hi - (i + 1)) + 1 := by omega
      rw [h1, h2]
      simp [List.take_succ_cons, List.drop_succ_cons]

/-- The rebuilt snapshot array: the prefix before `lo`, one combined
snapshot (the in-order fold of the range, skipping `undefined`), and the
suffix after `hi`. -/
lemma mergeLoop_spec {V : Type} (l : List (Snap V)) (lo hi : Nat)
    (hlohi : lo ≤ hi) (hhi : hi < l.length) :
    mergeLoop l 0 lo hi (emptySnap V) [] =
      l.take lo ++
        [List.foldl combineSnap (emptySnap V) ((l.drop lo).take (hi - lo + 1))] ++
        l.drop (hi + 1) := by
  rw [mergeLoop_before l 0 lo hi (emptySnap V) [] (Nat.zero_le lo) hlohi (by omega)]
  simp

/-- `#mergeSnapshots` in closed form, when at least two snapshots exist and
the range is well-formed: prefix, one combined snapshot, suffix, and the
cursor unconditionally decremented by the number of snapshots removed. -/
lemma mergeSnapshots_spec {V : Type} (e : Engine V) (lo hi : Nat)
    (h2 : 2 ≤ e.snapshots.length) (hlohi : lo ≤ hi) (hhi : hi < e.snapshots.length) :
    mergeSnapshots e lo hi =
      { e with
        snapshots := e.snapshots.take lo ++
          [List.foldl combineSnap (emptySnap V) ((e.snapshots.drop lo).take (hi - lo + 1))] ++
          e.snapshots.drop (hi + 1)
        index := e.index - ((hi - lo : Nat) : Int) } := by
  unfold mergeSnapshots
  rw [if_neg (by push_neg; exact ⟨by omega, by omega⟩)]
  have hmin : min hi (e.snapshots.length - 1) = hi := min_eq_left (by omega)
  rw [hmin, mergeLoop_spec e.snapshots lo hi hlohi hhi]

/-- Merging removes exactly `hi - lo` snapshots. -/
lemma length_mergeSnapshots {V : Type} (e : Engine V) (lo hi : Nat)
    (h2 : 2 ≤ e.snapshots.length) (hlohi : lo ≤ hi) (hhi : hi < e.snapshots.length) :
    (mergeSnapshots e lo hi).snapshots.length = e.snapshots.length - (hi - lo) := by
  rw [mergeSnapshots_spec e lo hi h2 hlohi hhi]
  simp [List.length_take, List.length_drop]
  omega

/-- `#getStateAtIndex` at an in-range natural index is the plain fold over
the first `k + 1` snapshots. -/
lemma getStateAtIndex_ofNat {V : Type} (e : Engine V) (k : Nat)
    (hk : k < e.snapshots.length) :
    getStateAtIndex e (k : Int) =
      List.foldl applySnap e.initialState (e.snapshots.take (k + 1)) := by
  unfold getStateAtIndex
  congr 1
  have hk' : (k : Int) < (e.snapshots.length : Int) := by exact_mod_cast hk
  have h1 : max (0 : Int) (k : Int) = (k : Int) := max_eq_right (by positivity)
  have h2 : min ((k : Int)) ((e.snapshots.length : Int) - 1) = (k : Int) :=
    min_eq_left (by omega)
  rw [h1, h2]
  congr 1

/-- Folding over the truncated merged array equals folding over the
truncated original array: the combined snapshot acts exactly like the
snapshots it replaced. -/
lemma foldl_take_merged {V : Type} (snaps : List (Snap V)) (init : Snap V) (lo hi k : Nat)
    (hlohi : lo ≤ hi) (hhik : hi ≤ k) (hk : k < snaps.length) :
    List.foldl applySnap init
      ((snaps.take lo ++
        [List.foldl combineSnap (emptySnap V) ((snaps.drop lo).take (hi - lo + 1))] ++
        snaps.drop (hi + 1)).take (k - (hi - lo) + 1)) =
    List.foldl applySnap init (snaps.take (k + 1)) := by
  have hlenA : (snaps.take lo).length = lo := by rw [List.length_take]; omega
  have hlenAc :
      (snaps.take lo ++
        [List.foldl combineSnap (emptySnap V) ((snaps.drop lo).take (hi - lo + 1))]).length
      = lo + 1 := by
    rw [List.length_append, hlenA]; rfl
  rw [List.take_append_eq_append_take]
  rw [List.take_of_length_le (by rw [hlenAc]; omega)]
  rw [hlenAc]
  have hsub : k - (hi - lo) + 1 - (lo + 1) = k - hi := by omega
  rw [hsub]
  have hsplit : k + 1 = lo + ((hi - lo + 1) + (k - hi)) := by omega
  have hdd : ((snaps.drop lo).drop (hi - lo + 1)) = snaps.drop (hi + 1) := by
    rw [List.drop_drop]
    congr 1
    omega
  have hRHS : snaps.take (k + 1) =
      snaps.take lo ++
        ((snaps.drop lo).take (hi - lo + 1) ++ (snaps.drop (hi + 1)).take (k - hi)) := by
    rw [hsplit, List.take_add]
    congr 1
    rw [List.take_add]
    congr 1
    rw [hdd]
  rw [hRHS]
  simp only [List.foldl_append, List.foldl_cons, List.foldl_nil]
  congr 1
  have hfold := foldl_applySnap_combineSnap ((snaps.drop lo).take (hi - lo + 1))
    (List.foldl applySnap init (snaps.take lo)) (emptySnap V)
  rw [applySnap_emptySnap] at hfold
  rw [← hfold]

/-- Shared helper: collapsing the inclusive range `[lo, hi]` with
`hi ≤ k < snapshotCount` does not change the materialized state at the
surviving index `k - (hi - lo)`. -/
lemma getStateAtIndex_mergeSnapshots {V : Type} (e : Engine V) (lo hi k : Nat)
    (hlohi : lo ≤ hi) (hhik : hi ≤ k) (hk : k < e.snapshots.length) :
    getStateAtIndex (mergeSnapshots e lo hi) ((k - (hi - lo) : Nat) : Int) =
      getStateAtIndex e (k : Int) := by
  by_cases hsmall : e.snapshots.length ≤ 1
  · have hk0 : k = 0 := by omega
    have hhi0 : hi = 0 := by omega
    have hlo0 : lo = 0 := by omega
    subst hk0; subst hhi0; subst hlo0
    unfold mergeSnapshots
    rw [if_pos (Or.inl (by omega))]
  · push_neg at hsmall
    have h2 : 2 ≤ e.snapshots.length := hsmall
    have hhilen : hi < e.snapshots.length := by omega
    have hlenNew :
        (e.snapshots.take lo ++
          [List.foldl combineSnap (emptySnap V) ((e.snapshots.drop lo).take (hi - lo + 1))] ++
          e.snapshots.drop (hi + 1)).length = e.snapshots.length - (hi - lo) := by
      simp [List.length_take, List.length_drop]
      omega
    rw [mergeSnapshots_spec e lo hi h2 hlohi hhilen]
    rw [getStateAtIndex_ofNat e k hk]
    rw [getStateAtIndex_ofNat _ (k - (hi - lo)) (by
      show k - (hi - lo) <
        (e.snapshots.take lo ++
          [List.foldl combineSnap (emptySnap V) ((e.snapshots.drop lo).take (hi - lo + 1))] ++
          e.snapshots.drop (hi + 1)).length
      rw [hlenNew]
      omega)]
    exact foldl_take_merged e.snapshots e.initialState lo hi k hlohi hhik hk

/-- Folding any prefix of an all-empty snapshot array changes nothing:
after `#rewriteState`, every index materializes to the new initial state. -/
lemma foldl_applySnap_allEmpty {V : Type} :
    ∀ (l : List (Snap V)) (n : Nat) (st : Snap V),
      List.foldl applySnap st ((l.map (fun _ => emptySnap V)).take n) = st := by
  intro l
  induction l with
  | nil => intro n st; simp
  | cons p rest ih =>
    intro n st
    cases n with
    | zero => simp
    | succ m =>
      simp only [List.map_cons, List.take_succ_cons, List.foldl_cons]
      rw [applySnap_emptySnap]
      exact ih m st

/-- After `#rewriteState(st)`, the state materialized at any index is `st`. -/
lemma getStateAtIndex_rewriteState {V : Type} (e : Engine V) (st : Snap V) (i : Int) :
    getStateAtIndex (rewriteState e st) i = st := by
  unfold rewriteState getStateAtIndex
  exact foldl_applySnap_allEmpty e.snapshots _ st

/-! ## Slot writes and stamps, in closed form -/

lemma take_set_of_le' {α : Type} (l : List α) (n m : Nat) (a : α) (h : m ≤ n) :
    (l.set n a).take m = l.take m := by
  apply List.ext_getElem
  · simp
  · intro j h1 h2
    rw [List.getElem_take, List.getElem_take, List.getElem_set_ne]
    simp at h1
    omega

lemma take_succ_set_self {α : Type} (l : List α) (n : Nat) (a : α) (h : n < l.length) :
    (l.set n a).take (n + 1) = l.take n ++ [a] := by
  rw [List.set_eq_take_append_cons_drop, if_pos h]
  rw [List.take_append_eq_append_take]
  rw [List.take_of_length_le (by rw [List.length_take]; omega)]
  congr 1
  rw [List.length_take]
  have hmin : min n l.length = n := min_eq_left (le_of_lt h)
  rw [hmin]
  have hone : n + 1 - n = 1 := by omega
  rw [hone]
  rfl

/-- Writing to an existing slot is `List.set`. -/
lemma writeSlot_set {V : Type} (l : List (Snap V)) (n : Nat) (v : Snap V)
    (h : n < l.length) : writeSlot l (n : Int) v = l.set n v := by
  unfold writeSlot
  rw [if_neg (by omega), Int.toNat_natCast, if_pos h]

/-- Writing to the slot just past the end appends. -/
lemma writeSlot_append {V : Type} (l : List (Snap V)) (v : Snap V) :
    writeSlot l (l.length : Int) v = l ++ [v] := by
  unfold writeSlot
  rw [if_neg (by omega), Int.toNat_natCast, if_neg (by omega), if_pos rfl]

/-- Stamping a key at a valid slot replaces that slot with a function that
answers `v` at the stamped key and the old slot value elsewhere. -/
lemma stampAt_eq_set {V : Type} (l : List (Snap V)) (n : Nat) (key : String)
    (v : Option (SBVal V)) (h : n < l.length) :
    ∃ s : Snap V, stampAt l (n : Int) key v = l.set n s ∧ s key = v ∧
      ∀ k, k ≠ key → s k = (l.get ⟨n, h⟩) k := by
  unfold stampAt
  rw [dif_pos ⟨Int.natCast_nonneg n, by rw [Int.toNat_natCast]; exact h⟩]
  simp only [Int.toNat_natCast]
  refine ⟨fun k => if k = key then v else (l.get ⟨n, h⟩) k, rfl, by simp, ?_⟩
  intro k hk
  simp [hk]

/-- The fold over the first `n + 1` snapshots of `l.set n s`: the prefix
fold, then `s` applied on top. -/
lemma foldl_take_set_succ {V : Type} (l : List (Snap V)) (init : Snap V) (n : Nat)
    (s : Snap V) (h : n < l.length) :
    List.foldl applySnap init ((l.set n s).take (n + 1)) =
      applySnap (List.foldl applySnap init (l.take n)) s := by
  rw [take_succ_set_self l n s h, List.foldl_append]
  rfl

/-! ## Claims -/

/-- C1 (merge invariance of materialization): for every engine state (any
initial state and snapshot sequence) and every sub-range `[a, b]` of
`[0, k]` with `k` a valid index, merging the snapshots in `[a, b]` into one
combined snapshot leaves the materialized state at the surviving index
corresponding to `k` (namely `k - (b - a)`) unchanged. -/
theorem c1_merge_invariance {V : Type} (e : Engine V) (a b k : Nat)
    (hab : a ≤ b) (hbk : b ≤ k) (hk : k < e.snapshots.length) :
    getStateAtIndex (mergeSnapshots e a b) ((k - (b - a) : Nat) : Int) =
      getStateAtIndex e (k : Int) :=
  getStateAtIndex_mergeSnapshots e a b k hab hbk hk

/-- Witness for C1 at a concrete engine: merging `[1, 2]` of a 4-snapshot
history preserves the state materialized at index 3 (surviving index 2). -/
theorem c1_merge_invariance_witness :
    (1 ≤ 2 ∧ 2 ≤ 3 ∧ 3 < fourSnapEngine.snapshots.length) ∧
    getStateAtIndex (mergeSnapshots fourSnapEngine 1 2) ((3 - (2 - 1) : Nat) : Int) =
      getStateAtIndex fourSnapEngine (3 : Int) :=
  ⟨⟨by decide, by decide, by decide⟩,
    c1_merge_invariance fourSnapEngine 1 2 3 (by decide) (by decide) (by decide)⟩

/-- C7, counterexample: merging the range `[1, 2]` while the cursor sits at
0 — a range entirely after the cursor — still decrements the cursor, which
leaves the valid range `[0, snapshotCount-1]` (it becomes `-1`), contrary
to the claim that the cursor is adjusted only when it is at or after the
merged region and always stays in bounds. -/
theorem c7_cursor_counterexample :
    (mergeSnapshots cursorZeroEngine 1 2).index = -1 ∧
    ¬(0 ≤ (mergeSnapshots cursorZeroEngine 1 2).index) := by
  exact ⟨by decide, by decide⟩

/-- C7, amended: after a merge of a well-formed range `[lo, hi]`, the
cursor is unconditionally decremented by the number of snapshots removed;
when the cursor was at or after the merged region this keeps it inside
`[0, snapshotCount-1]` and pointing at the logically same position (the
materialized state at the cursor is unchanged). -/
theorem c7_cursor_adjustment_amended {V : Type} (e : Engine V) (lo hi : Nat)
    (h2 : 2 ≤ e.snapshots.length) (hlohi : lo ≤ hi) (hhi : hi < e.snapshots.length) :
    (mergeSnapshots e lo hi).index = e.index - ((hi - lo : Nat) : Int) ∧
    ∀ (c : Nat), e.index = (c : Int) → hi ≤ c → c < e.snapshots.length →
      0 ≤ (mergeSnapshots e lo hi).index ∧
      (mergeSnapshots e lo hi).index < ((mergeSnapshots e lo hi).snapshots.length : Int) ∧
      getStateAtIndex (mergeSnapshots e lo hi) (mergeSnapshots e lo hi).index =
        getStateAtIndex e e.index := by
  have hspec := mergeSnapshots_spec e lo hi h2 hlohi hhi
  have hidx : (mergeSnapshots e lo hi).index = e.index - ((hi - lo : Nat) : Int) := by
    rw [hspec]
  refine ⟨hidx, ?_⟩
  intro c hc hhic hclen
  have hlen := length_mergeSnapshots e lo hi h2 hlohi hhi
  refine ⟨?_, ?_, ?_⟩
  · rw [hidx, hc]
    omega
  · rw [hidx, hc, hlen]
    omega
  · rw [hidx, hc]
    have hcast : (c : Int) - ((hi - lo : Nat) : Int) = ((c - (hi - lo) : Nat) : Int) := by
      omega
    rw [hcast]
    exact getStateAtIndex_mergeSnapshots e lo hi c hlohi hhic hclen

/-- Witness for the amended C7 at a concrete engine with the cursor (3) at
or after the merged region `[1, 2]`. -/
theorem c7_cursor_adjustment_amended_witness :
    (2 ≤ fourSnapEngine.snapshots.length) ∧
    0 ≤ (mergeSnapshots fourSnapEngine 1 2).index ∧
    (mergeSnapshots fourSnapEngine 1 2).index <
      ((mergeSnapshots fourSnapEngine 1 2).snapshots.length : Int) ∧
    getStateAtIndex (mergeSnapshots fourSnapEngine 1 2)
        (mergeSnapshots fourSnapEngine 1 2).index =
      getStateAtIndex fourSnapEngine fourSnapEngine.index :=
  ⟨by decide,
    (c7_cursor_adjustment_amended fourSnapEngine 1 2 (by decide) (by decide)
      (by decide)).2 3 rfl (by decide) (by decide)⟩

/-- C2 (migration is all-or-nothing): loading an outdated save whose
migration loop fails — a missing migration step for some intermediate
version, or a step that throws — fails with the corresponding error and
leaves the engine's initial state, snapshot array and cursor index exactly
as they were before the load attempt. -/
theorem c2_migration_rollback {V : Type} (map : MigMap V) (engineVersion : Version)
    (mode : CompatMode) (fuel : Nat) (e : Engine V) (save : SaveData V) (err : MigErr)
    (hout : isSaveCompatibleWithEngine save.saveVersion engineVersion mode = .outdatedSave)
    (herr : migLoop map engineVersion
        (getStateAtIndex (installSave e save) (installSave e save).index) fuel
        save.saveVersion none = .error err) :
    loadSaveFromData map engineVersion mode fuel e save = (e, some (.migration err)) := by
  unfold loadSaveFromData
  rw [hout, herr]
  exact rfl

/-- Witness for C2: with only `0.1.0 → 0.2.0` registered, loading a
`0.1.0` save under engine version `0.3.0` gets stuck at `0.2.0`, fails
with a missing-migrator error, and returns the untouched engine. -/
theorem c2_migration_rollback_witness :
    (isSaveCompatibleWithEngine oldSave.saveVersion ⟨0, 3, 0⟩ .strict = .outdatedSave) ∧
    loadSaveFromData stuckMap ⟨0, 3, 0⟩ .strict 10 loaderEngine oldSave =
      (loaderEngine, some (.migration (.missingMigrator ⟨0, 2, 0⟩))) :=
  ⟨by decide,
    c2_migration_rollback stuckMap ⟨0, 3, 0⟩ .strict 10 loaderEngine oldSave
      (.missingMigrator ⟨0, 2, 0⟩) (by decide) rfl⟩

/-- C5 (migration chain success): with exactly the single-step migrations
`0.1.0 → 0.2.0` (`f`) and `0.2.0 → 0.3.0` (`g`) registered, loading a save
tagged `0.1.0` under engine version `0.3.0` succeeds; the new initial
state is `g (f ·)` applied to the installed save's materialized state, and
every index afterwards materializes to that migrated state (the snapshots
are all emptied). -/
theorem c5_migration_chain {V : Type} (f g : Snap V → Snap V) (e : Engine V)
    (save : SaveData V) (m : Nat) (hsv : save.saveVersion = ⟨0, 1, 0⟩) :
    (loadSaveFromData (twoStepMap f g) ⟨0, 3, 0⟩ .strict (m + 3) e save).2 = none ∧
    (loadSaveFromData (twoStepMap f g) ⟨0, 3, 0⟩ .strict (m + 3) e save).1.initialState =
      g (f (getStateAtIndex (installSave e save) (installSave e save).index)) ∧
    ∀ (i : Int),
      getStateAtIndex (loadSaveFromData (twoStepMap f g) ⟨0, 3, 0⟩ .strict (m + 3) e save).1 i =
        g (f (getStateAtIndex (installSave e save) (installSave e save).index)) := by
  have hcompat : isSaveCompatibleWithEngine save.saveVersion ⟨0, 3, 0⟩ .strict =
      .outdatedSave := by
    rw [hsv]; decide
  have hloop : migLoop (twoStepMap f g) ⟨0, 3, 0⟩
      (getStateAtIndex (installSave e save) (installSave e save).index) (m + 3)
      save.saveVersion none =
      .ok (some (g (f (getStateAtIndex (installSave e save) (installSave e save).index)))) := by
    rw [hsv]
    exact rfl
  have hload : loadSaveFromData (twoStepMap f g) ⟨0, 3, 0⟩ .strict (m + 3) e save =
      (rewriteState (installSave e save)
        (g (f (getStateAtIndex (installSave e save) (installSave e save).index))), none) := by
    unfold loadSaveFromData
    rw [hcompat, hloop]
  rw [hload]
  exact ⟨rfl, rfl, fun i => getStateAtIndex_rewriteState _ _ i⟩

/-- Witness for C5: concrete two-step migration of a concrete `0.1.0` save
under engine version `0.3.0`; the migrated baseline is reached and the
state materialized at index 0 equals it. -/
theorem c5_migration_chain_witness :
    (oldSave.saveVersion = (⟨0, 1, 0⟩ : Version)) ∧
    (loadSaveFromData (twoStepMap migA migB) ⟨0, 3, 0⟩ .strict 3 loaderEngine oldSave).2 =
      none ∧
    getStateAtIndex
        (loadSaveFromData (twoStepMap migA migB) ⟨0, 3, 0⟩ .strict 3 loaderEngine oldSave).1 0 =
      migB (migA (getStateAtIndex (installSave loaderEngine oldSave)
        (installSave loaderEngine oldSave).index)) :=
  ⟨rfl,
    (c5_migration_chain migA migB loaderEngine oldSave 0 rfl).1,
    (c5_migration_chain migA migB loaderEngine oldSave 0 rfl).2.2 0⟩

/-- C6, counterexample: with the previous state holding `gold = 123`, a
replacement-mode `setVars` returning only `{gems: 21}` succeeds, maps
`gems` to 21, but materializes `gold` to `undefined` (`none`) afterwards —
the unmentioned top-level key is dropped, not retained. -/
theorem c6_replacement_counterexample :
    getStateAtIndex goldEngine goldEngine.index "gold" = some (.num 123) ∧
    (setVars goldEngine (.replace gemsOnlySnap)).map
        (fun r => getStateAtIndex r.1 r.1.index "gold") = some none ∧
    (setVars goldEngine (.replace gemsOnlySnap)).map
        (fun r => getStateAtIndex r.1 r.1.index "gems") = some (some (.num 21)) :=
  ⟨by decide, by decide, by decide⟩

/-- C6, amended: a replacement-mode `setVars` installs the replacement —
with `__id` and `__seed` carried over from the pre-call resolved state —
as the new initial state and empties every snapshot, so afterwards every
non-metadata top-level key materializes (at every index) to exactly the
value the replacement gives it: keys mentioned get their new value and
keys not mentioned are absent (`undefined`), not retained. -/
theorem c6_replacement_amended {V : Type} (e : Engine V) (repl : Snap V)
    (h0 : 0 ≤ e.index) (hl : e.index.toNat < e.snapshots.length) :
    ∀ (res : Engine V × StateChangeEvent V), setVars e (.replace repl) = some res →
      (∀ (i : Int) (k : String), k ≠ "__id" → k ≠ "__seed" →
        getStateAtIndex res.1 i k = repl k) ∧
      (∀ (i : Int), getStateAtIndex res.1 i "__id" = getStateAtIndex e e.index "__id") ∧
      (∀ (i : Int), getStateAtIndex res.1 i "__seed" = getStateAtIndex e e.index "__seed") := by
  intro res hres
  unfold setVars at hres
  rw [if_pos ⟨h0, hl⟩] at hres
  injection hres with hres
  subst hres
  refine ⟨?_, ?_, ?_⟩
  · intro i k hk1 hk2
    rw [getStateAtIndex_rewriteState]
    simp [hk1, hk2]
  · intro i
    rw [getStateAtIndex_rewriteState]
    simp
  · intro i
    rw [getStateAtIndex_rewriteState]
    simp

/-- Witness for the amended C6 at the concrete `gold`/`gems` input. -/
theorem c6_replacement_amended_witness :
    (0 ≤ goldEngine.index ∧ goldEngine.index.toNat < goldEngine.snapshots.length) ∧
    getStateAtIndex ((setVars goldEngine (.replace gemsOnlySnap)).getD
        (goldEngine, ⟨emptySnap Unit, emptySnap Unit⟩)).1 0 "gems" = gemsOnlySnap "gems" ∧
    getStateAtIndex ((setVars goldEngine (.replace gemsOnlySnap)).getD
        (goldEngine, ⟨emptySnap Unit, emptySnap Unit⟩)).1 0 "gold" = gemsOnlySnap "gold" := by
  have hcall : setVars goldEngine (.replace gemsOnlySnap) =
      some ((setVars goldEngine (.replace gemsOnlySnap)).getD
        (goldEngine, ⟨emptySnap Unit, emptySnap Unit⟩)) := rfl
  have h := c6_replacement_amended goldEngine gemsOnlySnap (by decide) (by decide) _ hcall
  exact ⟨⟨by decide, by decide⟩, h.1 0 "gems" (by decide) (by decide),
    h.1 0 "gold" (by decide) (by decide)⟩

/-- C9 (code bug, demonstrated at a failing input): `setVars` sets `gold`
from 123 to 5, so the operation changes the resolved state, yet the
emitted `:stateChange` event carries the new snapshot in BOTH payload
fields: `oldState` equals `newState`, and `oldState.gold` is the new value
5 rather than the pre-change 123 — the source passes
`makeImmutable(newState)` for both fields and never uses the `oldState`
object it computed. -/
theorem c9_state_change_event_bug :
    goldFiveResult.2.oldState = goldFiveResult.2.newState ∧
    goldFiveResult.2.oldState "gold" = some (.num 5) ∧
    getStateAtIndex goldEngine goldEngine.index "gold" = some (.num 123) ∧
    getStateAtIndex goldFiveResult.1 goldFiveResult.1.index "gold" = some (.num 5) :=
  ⟨rfl, by decide, by decide, by decide⟩

/-- C10 (slot 0 aliases the autosave slot): requesting the storage key for
slot 0 yields the autosave key without running slot-range validation, even
though the validator itself accepts 0 (`0 ≤ 0 < saveSlots`); consequently
no call can ever produce the normal slot-0 key. -/
theorem c10_slot_zero_autosave (cfg : Config) (engineName : String) :
    getSaveKeyFromSaveSlotNumber cfg engineName (some 0) = .ok (.autosave engineName) ∧
    (0 < cfg.saveSlots → assertSaveSlotIsValid cfg 0 = .ok ()) ∧
    ∀ (s : Option Int) (m : Int),
      getSaveKeyFromSaveSlotNumber cfg engineName s = .ok (.slot engineName m) →
        m ≠ 0 := by
  refine ⟨rfl, ?_, ?_⟩
  · intro hpos
    have h : ¬((0 : Int) < 0 ∨ (0 : Int) ≥ (cfg.saveSlots : Int)) := by
      push_neg
      refine ⟨by omega, ?_⟩
      exact_mod_cast hpos
    unfold assertSaveSlotIsValid
    rw [if_neg h]
  · intro s m hkey
    cases s with
    | none => simp [getSaveKeyFromSaveSlotNumber] at hkey
    | some n =>
      simp only [getSaveKeyFromSaveSlotNumber] at hkey
      by_cases hn : n = 0
      · rw [if_pos hn] at hkey
        simp at hkey
      · rw [if_neg hn] at hkey
        cases hassert : assertSaveSlotIsValid cfg n with
        | error err => rw [hassert] at hkey; simp at hkey
        | ok u =>
          rw [hassert] at hkey
          simp at hkey
          omega

/-- Witness for C10 at a concrete configuration and engine name. -/
theorem c10_slot_zero_autosave_witness :
    (0 < roomyConfig.saveSlots) ∧
    getSaveKeyFromSaveSlotNumber roomyConfig "story" (some 0) = .ok (.autosave "story") ∧
    assertSaveSlotIsValid roomyConfig 0 = .ok () ∧
    (3 : Int) ≠ 0 :=
  ⟨by decide,
    (c10_slot_zero_autosave roomyConfig "story").1,
    (c10_slot_zero_autosave roomyConfig "story").2.1 (by decide),
    (c10_slot_zero_autosave roomyConfig "story").2.2 (some 3) 3 rfl⟩

/-- C3, counterexample: from a fresh engine, `navigateTo(A)`,
`navigateTo(B)`, `backward(2)`, `navigateTo(C)` leaves the cursor at 1 with
three snapshots, and materializing index 2 — beyond the new cursor — still
resolves passage `B` of the abandoned branch, not `C`: the old future is
still reachable, contrary to the claim. -/
theorem c3_overwrite_counterexample :
    divergedEngine.index = 1 ∧
    divergedEngine.snapshots.length = 3 ∧
    getStateAtIndex divergedEngine 1 "__id" = some (.str "C") ∧
    getStateAtIndex divergedEngine 2 "__id" = some (.str "B") :=
  ⟨by decide, by decide, by decide, by decide⟩

/-- Closed form of a `navigateTo` that overwrites an existing slot: no
merge (below capacity) and `index + 1` strictly inside the array.  The call
succeeds, replaces exactly slot `index + 1` with a snapshot `s4` carrying
the new passage id (explicitly, or implicitly because the resolved id
already equals it) and — under the `"passage"` policy — the freshly
advanced seed, and moves the cursor to `index + 1`. -/
lemma navigateTo_overwrite_spec {V : Type} [DecidableEq V] (cfg : Config) (P : PRNGModel V)
    (e : Engine V) (pid : String) (i : Nat)
    (hp : pid ∈ e.passages)
    (hcap : e.snapshots.length < cfg.maxStateCount)
    (hip : e.index = (i : Int))
    (hlen : i + 1 < e.snapshots.length) :
    ∃ s4 : Snap V,
      navigateTo cfg P e pid =
        ({ e with snapshots := e.snapshots.set (i + 1) s4, index := (i : Int) + 1 }, none) ∧
      (s4 "__id" = some (SBVal.str pid) ∨
        (s4 "__id" = none ∧ getStateAtIndex e ((i : Int)) "__id" = some (SBVal.str pid))) ∧
      (cfg.regenSeed = .passage →
        s4 "__seed" = some (.num (P.next (getStateAtIndex e ((i : Int)) "__seed")))) := by
  have hslot : e.index + 1 = ((i + 1 : Nat) : Int) := by rw [hip]; push_cast; ring
  have he1 : mergeIfAtCapacity cfg e = e := by
    unfold mergeIfAtCapacity
    rw [if_neg (by omega)]
  have hw2 : writeSlot e.snapshots (e.index + 1) (emptySnap V) =
      e.snapshots.set (i + 1) (emptySnap V) := by
    rw [hslot]
    exact writeSlot_set e.snapshots (i + 1) (emptySnap V) hlen
  have he2 : addNewSnapshot cfg e =
      { e with snapshots := e.snapshots.set (i + 1) (emptySnap V) } := by
    unfold addNewSnapshot
    rw [he1, hw2]
  have hmat : ∀ (s : Snap V) (idx : Int), idx ≤ (i : Int) →
      getStateAtIndex { e with snapshots := e.snapshots.set (i + 1) s } idx =
        getStateAtIndex e idx := by
    intro s idx hidx
    unfold getStateAtIndex
    dsimp only
    rw [List.length_set]
    congr 1
    apply take_set_of_le'
    have h1 : min (max 0 idx) ((e.snapshots.length : Int) - 1) ≤ (i : Int) :=
      le_trans (min_le_left _ _) (max_le (Int.natCast_nonneg i) hidx)
    omega
  have hkey : ∃ s4 : Snap V,
      stampNewSeed cfg P (stampNewId pid (addNewSnapshot cfg e)) =
        { e with snapshots := e.snapshots.set (i + 1) s4 } ∧
      (s4 "__id" = some (SBVal.str pid) ∨
        (s4 "__id" = none ∧ getStateAtIndex e ((i : Int)) "__id" = some (SBVal.str pid))) ∧
      (cfg.regenSeed = .passage →
        s4 "__seed" = some (.num (P.next (getStateAtIndex e ((i : Int)) "__seed")))) := by
    by_cases hc : getStateAtIndex e ((i : Int)) "__id" = some (SBVal.str pid)
    · -- the resolved id already equals the target: no id stamp
      have he3 : stampNewId pid (addNewSnapshot cfg e) =
          { e with snapshots := e.snapshots.set (i + 1) (emptySnap V) } := by
        unfold stampNewId
        rw [he2]
        rw [if_neg (not_not_intro (by
          show getStateAtIndex { e with snapshots := e.snapshots.set (i + 1) (emptySnap V) }
              e.index "__id" = some (SBVal.str pid)
          rw [hmat (emptySnap V) e.index (le_of_eq hip), hip, hc]))]
      by_cases hseed : cfg.regenSeed = .passage
      · obtain ⟨s4, hs4eq, hs4seed, hs4other⟩ :=
          stampAt_eq_set (e.snapshots.set (i + 1) (emptySnap V)) (i + 1) "__seed"
            (some (.num (P.next (getStateAtIndex
              { e with snapshots := e.snapshots.set (i + 1) (emptySnap V) } e.index "__seed"))))
            (by simp only [List.length_set]; omega)
        refine ⟨s4, ?_, Or.inr ⟨?_, hc⟩, fun _ => ?_⟩
        · unfold stampNewSeed
          rw [he3, if_pos hseed]
          dsimp only
          rw [hslot, hs4eq, List.set_set]
        · rw [hs4other "__id" (by decide)]
          simp [emptySnap]
        · rw [hs4seed, hmat (emptySnap V) e.index (le_of_eq hip), hip]
      · refine ⟨emptySnap V, ?_, Or.inr ⟨rfl, hc⟩, fun h => absurd h hseed⟩
        unfold stampNewSeed
        rw [he3, if_neg hseed]
    · -- the target id differs: stamp it into the new snapshot
      obtain ⟨s3, hs3eq, hs3id, hs3other⟩ :=
        stampAt_eq_set (e.snapshots.set (i + 1) (emptySnap V)) (i + 1) "__id"
          (some (.str pid)) (by simp only [List.length_set]; omega)
      have he3 : stampNewId pid (addNewSnapshot cfg e) =
          { e with snapshots := e.snapshots.set (i + 1) s3 } := by
        unfold stampNewId
        rw [he2]
        rw [if_pos (by
          show getStateAtIndex { e with snapshots := e.snapshots.set (i + 1) (emptySnap V) }
              e.index "__id" ≠ some (SBVal.str pid)
          rw [hmat (emptySnap V) e.index (le_of_eq hip), hip]
          exact hc)]
        dsimp only
        rw [hslot, hs3eq, List.set_set]
      by_cases hseed : cfg.regenSeed = .passage
      · obtain ⟨s4, hs4eq, hs4seed, hs4other⟩ :=
          stampAt_eq_set (e.snapshots.set (i + 1) s3) (i + 1) "__seed"
            (some (.num (P.next (getStateAtIndex
              { e with snapshots := e.snapshots.set (i + 1) s3 } e.index "__seed"))))
            (by simp only [List.length_set]; omega)
        refine ⟨s4, ?_, Or.inl ?_, fun _ => ?_⟩
        · unfold stampNewSeed
          rw [he3, if_pos hseed]
          dsimp only
          rw [hslot, hs4eq, List.set_set]
        · rw [hs4other "__id" (by decide)]
          rw [show ((e.snapshots.set (i + 1) s3).get
            ⟨i + 1, by simp only [List.length_set]; omega⟩) = s3 from by
              simp]
          exact hs3id
        · rw [hs4seed, hmat s3 e.index (le_of_eq hip), hip]
      · refine ⟨s3, ?_, Or.inl hs3id, fun h => absurd h hseed⟩
        unfold stampNewSeed
        rw [he3, if_neg hseed]
  obtain ⟨s4, hs4, hid4, hseed4⟩ := hkey
  refine ⟨s4, ?_, hid4, hseed4⟩
  unfold navigateTo
  rw [if_neg (not_not_intro hp), hs4]
  unfold navFinish
  dsimp only
  rw [if_neg (by
    push_neg
    rw [List.length_set]
    constructor
    · rw [hip]; omega
    · rw [hip]
      have : ((i + 1 : Nat) : Int) ≤ (e.snapshots.length : Int) := by exact_mod_cast hlen.le
      omega)]
  rw [hip]

lemma set_append_last {α : Type} (l : List α) (a b : α) :
    (l ++ [a]).set l.length b = l ++ [b] := by
  rw [List.set_eq_take_append_cons_drop, if_pos (by simp)]
  rw [List.take_left]
  congr 1
  rw [show l.length + 1 = (l ++ [a]).length from by simp]
  simp

/-- Closed form of a `navigateTo` from the last snapshot below capacity:
the call succeeds, appends one snapshot `s4` carrying the new passage id
(explicitly or implicitly) and — under the `"passage"` policy — the
freshly advanced seed, and moves the cursor to the new last index. -/
lemma navigateTo_append_spec {V : Type} [DecidableEq V] (cfg : Config) (P : PRNGModel V)
    (e : Engine V) (pid : String) (i : Nat)
    (hp : pid ∈ e.passages)
    (hcap : e.snapshots.length < cfg.maxStateCount)
    (hip : e.index = (i : Int))
    (hend : i + 1 = e.snapshots.length) :
    ∃ s4 : Snap V,
      navigateTo cfg P e pid =
        ({ e with snapshots := e.snapshots ++ [s4], index := (i : Int) + 1 }, none) ∧
      (s4 "__id" = some (SBVal.str pid) ∨
        (s4 "__id" = none ∧ getStateAtIndex e ((i : Int)) "__id" = some (SBVal.str pid))) ∧
      (cfg.regenSeed = .passage →
        s4 "__seed" = some (.num (P.next (getStateAtIndex e ((i : Int)) "__seed")))) := by
  have hlen1 : i + 1 < (e.snapshots ++ [emptySnap V]).length := by simp; omega
  have hslot : e.index + 1 = ((i + 1 : Nat) : Int) := by rw [hip]; push_cast; ring
  have he1 : mergeIfAtCapacity cfg e = e := by
    unfold mergeIfAtCapacity
    rw [if_neg (by omega)]
  have hw2 : writeSlot e.snapshots (e.index + 1) (emptySnap V) =
      e.snapshots ++ [emptySnap V] := by
    rw [hslot, show ((i + 1 : Nat) : Int) = (e.snapshots.length : Int) from by
      exact_mod_cast hend]
    exact writeSlot_append e.snapshots (emptySnap V)
  have he2 : addNewSnapshot cfg e =
      { e with snapshots := e.snapshots ++ [emptySnap V] } := by
    unfold addNewSnapshot
    rw [he1, hw2]
  have hmat : ∀ (s : Snap V) (idx : Int), idx ≤ (i : Int) →
      getStateAtIndex { e with snapshots := e.snapshots ++ [s] } idx =
        getStateAtIndex e idx := by
    intro s idx hidx
    unfold getStateAtIndex
    dsimp only
    have hb : max 0 idx ≤ (i : Int) := max_le (Int.natCast_nonneg i) hidx
    have hlen' : ((i : Int)) + 1 = (e.snapshots.length : Int) := by exact_mod_cast hend
    rw [show (((e.snapshots ++ [s]).length : Nat) : Int) = (e.snapshots.length : Int) + 1 from
      by simp]
    rw [min_eq_left (by omega), min_eq_left (by omega)]
    congr 1
    rw [List.take_append_eq_append_take]
    rw [show (max 0 idx + 1).toNat - e.snapshots.length = 0 from by omega]
    simp
  have hkey : ∃ s4 : Snap V,
      stampNewSeed cfg P (stampNewId pid (addNewSnapshot cfg e)) =
        { e with snapshots := e.snapshots ++ [s4] } ∧
      (s4 "__id" = some (SBVal.str pid) ∨
        (s4 "__id" = none ∧ getStateAtIndex e ((i : Int)) "__id" = some (SBVal.str pid))) ∧
      (cfg.regenSeed = .passage →
        s4 "__seed" = some (.num (P.next (getStateAtIndex e ((i : Int)) "__seed")))) := by
    by_cases hc : getStateAtIndex e ((i : Int)) "__id" = some (SBVal.str pid)
    · have he3 : stampNewId pid (addNewSnapshot cfg e) =
          { e with snapshots := e.snapshots ++ [emptySnap V] } := by
        unfold stampNewId
        rw [he2]
        rw [if_neg (not_not_intro (by
          show getStateAtIndex { e with snapshots := e.snapshots ++ [emptySnap V] }
              e.index "__id" = some (SBVal.str pid)
          rw [hmat (emptySnap V) e.index (le_of_eq hip), hip, hc]))]
      by_cases hseed : cfg.regenSeed = .passage
      · obtain ⟨s4, hs4eq, hs4seed, hs4other⟩ :=
          stampAt_eq_set (e.snapshots ++ [emptySnap V]) (i + 1) "__seed"
            (some (.num (P.next (getStateAtIndex
              { e with snapshots := e.snapshots ++ [emptySnap V] } e.index "__seed"))))
            hlen1
        refine ⟨s4, ?_, Or.inr ⟨?_, hc⟩, fun _ => ?_⟩
        · unfold stampNewSeed
          rw [he3, if_pos hseed]
          dsimp only
          rw [hslot, hs4eq]
          rw [show ((e.snapshots ++ [emptySnap V]).set (i + 1) s4) =
              e.snapshots ++ [s4] from by
            rw [show i + 1 = e.snapshots.length from hend]
            exact set_append_last e.snapshots (emptySnap V) s4]
        · rw [hs4other "__id" (by decide)]
          rw [show ((e.snapshots ++ [emptySnap V]).get ⟨i + 1, hlen1⟩) = emptySnap V from by
            simp only [hend]
            simp]
          rfl
        · rw [hs4seed, hmat (emptySnap V) e.index (le_of_eq hip), hip]
      · refine ⟨emptySnap V, ?_, Or.inr ⟨rfl, hc⟩, fun h => absurd h hseed⟩
        unfold stampNewSeed
        rw [he3, if_neg hseed]
    · obtain ⟨s3, hs3eq, hs3id, hs3other⟩ :=
        stampAt_eq_set (e.snapshots ++ [emptySnap V]) (i + 1) "__id"
          (some (.str pid)) hlen1
      have he3 : stampNewId pid (addNewSnapshot cfg e) =
          { e with snapshots := e.snapshots ++ [s3] } := by
        unfold stampNewId
        rw [he2]
        rw [if_pos (by
          show getStateAtIndex { e with snapshots := e.snapshots ++ [emptySnap V] }
              e.index "__id" ≠ some (SBVal.str pid)
          rw [hmat (emptySnap V) e.index (le_of_eq hip), hip]
          exact hc)]
        dsimp only
        rw [hslot, hs3eq]
        rw [show ((e.snapshots ++ [emptySnap V]).set (i + 1) s3) =
            e.snapshots ++ [s3] from by
          rw [show i + 1 = e.snapshots.length from hend]
          exact set_append_last e.snapshots (emptySnap V) s3]
      by_cases hseed : cfg.regenSeed = .passage
      · obtain ⟨s4, hs4eq, hs4seed, hs4other⟩ :=
          stampAt_eq_set (e.snapshots ++ [s3]) (i + 1) "__seed"
            (some (.num (P.next (getStateAtIndex
              { e with snapshots := e.snapshots ++ [s3] } e.index "__seed"))))
            (by simp; omega)
        refine ⟨s4, ?_, Or.inl ?_, fun _ => ?_⟩
        · unfold stampNewSeed
          rw [he3, if_pos hseed]
          dsimp only
          rw [hslot, hs4eq]
          rw [show ((e.snapshots ++ [s3]).set (i + 1) s4) = e.snapshots ++ [s4] from by
            rw [show i + 1 = e.snapshots.length from hend]
            exact set_append_last e.snapshots s3 s4]
        · rw [hs4other "__id" (by decide)]
          rw [show ((e.snapshots ++ [s3]).get ⟨i + 1, by simp; omega⟩) = s3 from by
            simp only [hend]
            simp]
          exact hs3id
        · rw [hs4seed, hmat s3 e.index (le_of_eq hip), hip]
      · refine ⟨s3, ?_, Or.inl hs3id, fun h => absurd h hseed⟩
        unfold stampNewSeed
        rw [he3, if_neg hseed]
  obtain ⟨s4, hs4, hid4, hseed4⟩ := hkey
  refine ⟨s4, ?_, hid4, hseed4⟩
  unfold navigateTo
  rw [if_neg (not_not_intro hp), hs4]
  unfold navFinish
  dsimp only
  rw [if_neg (by
    push_neg
    constructor
    · rw [hip]; omega
    · rw [hip]
      have h1 : ((i : Int)) + 1 = (e.snapshots.length : Int) := by exact_mod_cast hend
      rw [show (((e.snapshots ++ [s4]).length : Nat) : Int) =
        (e.snapshots.length : Int) + 1 from by simp]
      omega)]
  rw [hip]

/-- C3, amended: after `backward(k)` then `navigateTo(X)` (no merge
triggered, new slot strictly inside the array), only the snapshot at the
new cursor is replaced: the navigation succeeds, the cursor advances by
one, the array keeps its length, materializing AT the new cursor resolves
`X`, and every snapshot strictly beyond the new cursor is untouched (so
materializing beyond the cursor can still reflect the abandoned branch). -/
theorem c3_overwrite_amended {V : Type} [DecidableEq V] (cfg : Config) (P : PRNGModel V)
    (e : Engine V) (pid : String) (i : Nat)
    (hp : pid ∈ e.passages)
    (hcap : e.snapshots.length < cfg.maxStateCount)
    (hip : e.index = (i : Int))
    (hlen : i + 1 < e.snapshots.length) :
    (navigateTo cfg P e pid).2 = none ∧
    (navigateTo cfg P e pid).1.index = (i : Int) + 1 ∧
    (navigateTo cfg P e pid).1.snapshots.length = e.snapshots.length ∧
    getStateAtIndex (navigateTo cfg P e pid).1 ((i : Int) + 1) "__id" = some (.str pid) ∧
    ∀ (j : Nat), i + 1 < j →
      (navigateTo cfg P e pid).1.snapshots[j]? = e.snapshots[j]? := by
  obtain ⟨s4, hnav, hid4, _⟩ :=
    navigateTo_overwrite_spec cfg P e pid i hp hcap hip hlen
  rw [hnav]
  refine ⟨rfl, rfl, by simp [List.length_set], ?_, ?_⟩
  · rw [show (i : Int) + 1 = ((i + 1 : Nat) : Int) from by push_cast; ring]
    rw [getStateAtIndex_ofNat _ (i + 1) (by simp only [List.length_set]; omega)]
    dsimp only
    rw [foldl_take_set_succ e.snapshots _ (i + 1) s4 hlen]
    show applySnap (List.foldl applySnap e.initialState (e.snapshots.take (i + 1))) s4 "__id" =
      some (SBVal.str pid)
    rw [applySnap_key]
    rcases hid4 with hstamped | ⟨hnone, hpre⟩
    · rw [hstamped]
    · rw [hnone]
      show List.foldl applySnap e.initialState (e.snapshots.take (i + 1)) "__id" =
        some (SBVal.str pid)
      rw [← getStateAtIndex_ofNat e i (by omega)]
      exact hpre
  · intro j hj
    dsimp only
    exact List.getElem?_set_ne (by omega)

/-- Witness for the amended C3: navigating to `C` after rewinding to index
0 of a 3-snapshot history succeeds and materializes `C` at the new
cursor. -/
theorem c3_overwrite_amended_witness :
    ("C" ∈ rewoundEngine.passages ∧
      rewoundEngine.snapshots.length < roomyConfig.maxStateCount ∧
      rewoundEngine.index = ((0 : Nat) : Int) ∧
      0 + 1 < rewoundEngine.snapshots.length) ∧
    (navigateTo roomyConfig samplePrng rewoundEngine "C").2 = none ∧
    getStateAtIndex (navigateTo roomyConfig samplePrng rewoundEngine "C").1
        (((0 : Nat) : Int) + 1) "__id" = some (.str "C") :=
  ⟨⟨by decide, by decide, by decide, by decide⟩,
    (c3_overwrite_amended roomyConfig samplePrng rewoundEngine "C" 0 (by decide) (by decide)
      (by decide) (by decide)).1,
    (c3_overwrite_amended roomyConfig samplePrng rewoundEngine "C" 0 (by decide) (by decide)
      (by decide) (by decide)).2.2.2.1⟩

/-! ## Capacity bookkeeping -/

lemma length_stampAt {V : Type} (l : List (Snap V)) (i : Int) (key : String)
    (v : Option (SBVal V)) : (stampAt l i key v).length = l.length := by
  unfold stampAt
  split_ifs <;> simp

lemma length_writeSlot_le {V : Type} (l : List (Snap V)) (i : Int) (v : Snap V) :
    (writeSlot l i v).length ≤ l.length + 1 := by
  unfold writeSlot
  split_ifs <;> simp

lemma stampNewId_length {V : Type} [DecidableEq V] (pid : String) (e : Engine V) :
    (stampNewId pid e).snapshots.length = e.snapshots.length := by
  unfold stampNewId
  split_ifs <;> simp [length_stampAt]

lemma stampNewSeed_length {V : Type} (cfg : Config) (P : PRNGModel V) (e : Engine V) :
    (stampNewSeed cfg P e).snapshots.length = e.snapshots.length := by
  unfold stampNewSeed
  split_ifs <;> simp [length_stampAt]

/-- One `navigateTo` keeps the snapshot count within `maxStateCount`, for
configurations with `2 ≤ maxStateCount` and
`1 ≤ stateMergeCount < maxStateCount`. -/
lemma navigateTo_length_le {V : Type} [DecidableEq V] (cfg : Config) (P : PRNGModel V)
    (e : Engine V) (pid : String)
    (hmax : 2 ≤ cfg.maxStateCount) (hmc : 1 ≤ cfg.stateMergeCount)
    (hmcmax : cfg.stateMergeCount < cfg.maxStateCount)
    (hinv : e.snapshots.length ≤ cfg.maxStateCount) :
    (navigateTo cfg P e pid).1.snapshots.length ≤ cfg.maxStateCount := by
  unfold navigateTo
  split_ifs with hp
  case neg => simpa using hinv
  case pos =>
    have hlen4 : (stampNewSeed cfg P (stampNewId pid (addNewSnapshot cfg e))).snapshots.length ≤
        cfg.maxStateCount := by
      rw [stampNewSeed_length, stampNewId_length]
      unfold addNewSnapshot
      dsimp only
      unfold mergeIfAtCapacity
      split_ifs with hcap
      · have hlm := length_mergeSnapshots e 0 cfg.stateMergeCount (by omega) (by omega)
          (by omega)
        have hw := length_writeSlot_le (mergeSnapshots e 0 cfg.stateMergeCount).snapshots
          ((mergeSnapshots e 0 cfg.stateMergeCount).index + 1) (emptySnap V)
        omega
      · have hw := length_writeSlot_le e.snapshots (e.index + 1) (emptySnap V)
        omega
    unfold navFinish
    split_ifs <;> simpa using hlen4

/-- Any sequence of `navigateTo` calls keeps the bound, by induction. -/
lemma runNavTrace_length_le {V : Type} [DecidableEq V] (cfg : Config) (P : PRNGModel V)
    (hmax : 2 ≤ cfg.maxStateCount) (hmc : 1 ≤ cfg.stateMergeCount)
    (hmcmax : cfg.stateMergeCount < cfg.maxStateCount) :
    ∀ (ops : List String) (e : Engine V), e.snapshots.length ≤ cfg.maxStateCount →
      (runNavTrace cfg P e ops).snapshots.length ≤ cfg.maxStateCount := by
  intro ops
  induction ops with
  | nil => intro e hinv; exact hinv
  | cons p ps ih =>
    intro e hinv
    exact ih _ (navigateTo_length_le cfg P e p hmax hmc hmcmax hinv)

/-- C4, counterexample: with `maxStateCount = 1` (a configuration the
constructor accepts), a single `navigateTo` from a fresh engine leaves two
snapshots — the capacity check merges nothing (`#mergeSnapshots` returns
early with fewer than two snapshots) and the append still happens. -/
theorem c4_capacity_counterexample :
    (runNavTrace tinyConfig samplePrng fourPassageEngine ["A"]).snapshots.length = 2 ∧
    tinyConfig.maxStateCount < 2 :=
  ⟨by decide, by decide⟩

/-- C4, amended: for configurations with `2 ≤ maxStateCount` and
`1 ≤ stateMergeCount < maxStateCount`, the snapshot count stays within
`maxStateCount` after every sequence of `navigateTo` calls from a fresh
engine; and every automatic merge triggered at capacity collapses exactly
the oldest `stateMergeCount + 1` snapshots into one combined snapshot. -/
theorem c4_capacity_amended {V : Type} [DecidableEq V] (cfg : Config) (P : PRNGModel V)
    (hmax : 2 ≤ cfg.maxStateCount) (hmc : 1 ≤ cfg.stateMergeCount)
    (hmcmax : cfg.stateMergeCount < cfg.maxStateCount) :
    (∀ (vars : Snap V) (startId : String) (seed : Int) (ps : List String)
        (ops : List String),
      (runNavTrace cfg P (initEngine vars startId seed ps) ops).snapshots.length ≤
        cfg.maxStateCount) ∧
    (∀ (e : Engine V), cfg.maxStateCount ≤ e.snapshots.length →
      (mergeSnapshots e 0 cfg.stateMergeCount).snapshots =
        [List.foldl combineSnap (emptySnap V)
          (e.snapshots.take (cfg.stateMergeCount + 1))] ++
          e.snapshots.drop (cfg.stateMergeCount + 1)) := by
  constructor
  · intro vars startId seed ps ops
    apply runNavTrace_length_le cfg P hmax hmc hmcmax
    show ([emptySnap V] : List (Snap V)).length ≤ cfg.maxStateCount
    simp
    omega
  · intro e hcap
    rw [mergeSnapshots_spec e 0 cfg.stateMergeCount (by omega) (by omega) (by omega)]
    simp

/-- Witness for the amended C4: a two-navigation trace under a
`maxStateCount = 2` configuration stays within bound, and the triggered
merge combines exactly the two oldest snapshots. -/
theorem c4_capacity_amended_witness :
    (2 ≤ smallConfig.maxStateCount ∧ 1 ≤ smallConfig.stateMergeCount ∧
      smallConfig.stateMergeCount < smallConfig.maxStateCount ∧
      smallConfig.maxStateCount ≤ cursorZeroEngine.snapshots.length) ∧
    (runNavTrace smallConfig samplePrng
        (initEngine (fun _ => none) "Start" 5 ["A", "B", "C"])
        ["A", "B"]).snapshots.length ≤ smallConfig.maxStateCount ∧
    (mergeSnapshots cursorZeroEngine 0 smallConfig.stateMergeCount).snapshots =
      [List.foldl combineSnap (emptySnap Unit)
        (cursorZeroEngine.snapshots.take (smallConfig.stateMergeCount + 1))] ++
        cursorZeroEngine.snapshots.drop (smallConfig.stateMergeCount + 1) :=
  ⟨⟨by decide, by decide, by decide, by decide⟩,
    (c4_capacity_amended smallConfig samplePrng (by decide) (by decide) (by decide)).1
      (fun _ => none) "Start" 5 ["A", "B", "C"] ["A", "B"],
    (c4_capacity_amended smallConfig samplePrng (by decide) (by decide) (by decide)).2
      cursorZeroEngine (by decide)⟩

/-! ## The fixed-seed invariant: no operation ever writes a `__seed` key -/

lemma foldl_applySnap_key_none {V : Type} :
    ∀ (l : List (Snap V)) (init : Snap V) (key : String),
      (∀ p ∈ l, p key = none) → List.foldl applySnap init l key = init key := by
  intro l
  induction l with
  | nil => intro init key _; rfl
  | cons p t ih =>
    intro init key h
    rw [List.foldl_cons, ih (applySnap init p) key (fun q hq => h q (List.mem_cons_of_mem _ hq))]
    rw [applySnap_key, h p (List.mem_cons_self _ _)]

lemma getStateAtIndex_key_none {V : Type} (e : Engine V) (idx : Int) (key : String)
    (h : ∀ p ∈ e.snapshots, p key = none) :
    getStateAtIndex e idx key = e.initialState key := by
  unfold getStateAtIndex
  exact foldl_applySnap_key_none _ _ key (fun p hp => h p (List.mem_of_mem_take hp))

lemma mergeLoop_key_none {V : Type} (key : String) :
    ∀ (l : List (Snap V)) (i lo hi : Nat) (comb : Snap V) (acc : List (Snap V)),
      (∀ p ∈ l, p key = none) → comb key = none → (∀ p ∈ acc, p key = none) →
      ∀ p ∈ mergeLoop l i lo hi comb acc, p key = none := by
  intro l
  induction l with
  | nil =>
    intro i lo hi comb acc _ _ hacc p hp
    exact hacc p (by simpa [mergeLoop] using hp)
  | cons s rest ih =>
    intro i lo hi comb acc hl hcomb hacc p hp
    have hs : s key = none := hl s (List.mem_cons_self _ _)
    have hrest : ∀ q ∈ rest, q key = none := fun q hq => hl q (List.mem_cons_of_mem _ hq)
    have hcomb' : combineSnap comb s key = none := by
      rw [combineSnap_key, hs]
      exact hcomb
    unfold mergeLoop at hp
    split_ifs at hp with hin hih
    · refine ih (i + 1) lo hi _ _ hrest hcomb' ?_ p hp
      intro q hq
      rcases List.mem_append.mp hq with hm | hm
      · exact hacc q hm
      · simp at hm
        subst hm
        exact hcomb'
    · exact ih (i + 1) lo hi _ _ hrest hcomb' hacc p hp
    · refine ih (i + 1) lo hi comb _ hrest hcomb ?_ p hp
      intro q hq
      rcases List.mem_append.mp hq with hm | hm
      · exact hacc q hm
      · simp at hm
        subst hm
        exact hs

lemma mergeSnapshots_key_none {V : Type} (e : Engine V) (lo hi : Nat) (key : String)
    (h : ∀ p ∈ e.snapshots, p key = none) :
    ∀ p ∈ (mergeSnapshots e lo hi).snapshots, p key = none := by
  unfold mergeSnapshots
  split_ifs with hguard
  · exact h
  · intro p hp
    exact mergeLoop_key_none key e.snapshots 0 lo (min hi (e.snapshots.length - 1))
      (emptySnap V) [] h rfl (by simp) p hp

lemma mergeSnapshots_initialState {V : Type} (e : Engine V) (lo hi : Nat) :
    (mergeSnapshots e lo hi).initialState = e.initialState := by
  unfold mergeSnapshots
  split_ifs <;> rfl

lemma writeSlot_key_none {V : Type} (l : List (Snap V)) (i : Int) (v : Snap V) (key : String)
    (h : ∀ p ∈ l, p key = none) (hv : v key = none) :
    ∀ p ∈ writeSlot l i v, p key = none := by
  unfold writeSlot
  split_ifs <;> intro p hp
  · exact h p hp
  · rcases List.mem_or_eq_of_mem_set hp with hm | hm
    · exact h p hm
    · subst hm; exact hv
  · rcases List.mem_append.mp hp with hm | hm
    · exact h p hm
    · simp at hm; subst hm; exact hv
  · exact h p hp

lemma stampAt_key_none {V : Type} (l : List (Snap V)) (i : Int) (key key2 : String)
    (v : Option (SBVal V)) (hne : key2 ≠ key) (h : ∀ p ∈ l, p key2 = none) :
    ∀ p ∈ stampAt l i key v, p key2 = none := by
  unfold stampAt
  split_ifs with hc
  · intro p hp
    rcases List.mem_or_eq_of_mem_set hp with hm | hm
    · exact h p hm
    · subst hm
      simp only [if_neg hne]
      exact h _ (l.get_mem _ _)
  · exact h

lemma setIndexOp_fields {V : Type} (e : Engine V) (val : Int)
    (pr : Engine V × StateChangeEvent V) (h : setIndexOp e val = .ok pr) :
    pr.1.initialState = e.initialState ∧ pr.1.snapshots = e.snapshots := by
  unfold setIndexOp at h
  split_ifs at h
  all_goals injection h with h
  all_goals subst h
  all_goals exact ⟨rfl, rfl⟩

/-- Under `regenSeed = false`, every operation preserves the fixed-seed
invariant: the engine's initial state keeps the configured seed and no
snapshot acquires a `__seed` key. -/
lemma runOp_seedFixedInv {V : Type} [DecidableEq V] (cfg : Config) (P : PRNGModel V)
    (hfix : cfg.regenSeed = .fixedSeed) (seed0 : Int) (e : Engine V) (op : EngineOp)
    (hinv : SeedFixedInv seed0 e) : SeedFixedInv seed0 (runOp cfg P e op) := by
  obtain ⟨hinit, hsnaps⟩ := hinv
  cases op with
  | nav pid =>
    show SeedFixedInv seed0 (navigateTo cfg P e pid).1
    unfold navigateTo
    split_ifs with hp
    case neg => exact ⟨hinit, hsnaps⟩
    case pos =>
      have hA : SeedFixedInv seed0 (addNewSnapshot cfg e) := by
        constructor
        · show (addNewSnapshot cfg e).initialState "__seed" = some (.num seed0)
          unfold addNewSnapshot
          dsimp only
          unfold mergeIfAtCapacity
          split_ifs with hcap
          · rw [mergeSnapshots_initialState]; exact hinit
          · exact hinit
        · show ∀ p ∈ (addNewSnapshot cfg e).snapshots, p "__seed" = none
          unfold addNewSnapshot
          dsimp only
          apply writeSlot_key_none
          · unfold mergeIfAtCapacity
            split_ifs with hcap
            · exact mergeSnapshots_key_none e 0 cfg.stateMergeCount "__seed" hsnaps
            · exact hsnaps
          · rfl
      have hB : SeedFixedInv seed0 (stampNewId pid (addNewSnapshot cfg e)) := by
        obtain ⟨hA1, hA2⟩ := hA
        constructor
        · unfold stampNewId
          split_ifs <;> exact hA1
        · unfold stampNewId
          split_ifs with hcond
          · exact stampAt_key_none _ _ "__id" "__seed" _ (by decide) hA2
          · exact hA2
      have hseedid : stampNewSeed cfg P (stampNewId pid (addNewSnapshot cfg e)) =
          stampNewId pid (addNewSnapshot cfg e) := by
        unfold stampNewSeed
        rw [if_neg (by rw [hfix]; decide)]
      rw [hseedid]
      obtain ⟨hB1, hB2⟩ := hB
      unfold navFinish
      split_ifs
      · exact ⟨hB1, hB2⟩
      · exact ⟨hB1, hB2⟩
  | randRead =>
    show SeedFixedInv seed0 (randomRead cfg P e).1
    unfold randomRead
    rw [if_neg (by rw [hfix]; decide)]
    exact ⟨hinit, hsnaps⟩
  | fwd n =>
    show SeedFixedInv seed0 (match forward e n with
      | .ok (e', _) => e' | .error _ => e)
    cases hF : forward e n with
    | error err => exact ⟨hinit, hsnaps⟩
    | ok pr =>
      unfold forward at hF
      have hfields : pr.1.initialState = e.initialState ∧ pr.1.snapshots = e.snapshots := by
        split_ifs at hF <;> exact setIndexOp_fields e _ pr hF
      exact ⟨by rw [hfields.1]; exact hinit, by rw [hfields.2]; exact hsnaps⟩
  | bwd n =>
    show SeedFixedInv seed0 (match backward e n with
      | .ok (e', _) => e' | .error _ => e)
    cases hF : backward e n with
    | error err => exact ⟨hinit, hsnaps⟩
    | ok pr =>
      unfold backward at hF
      have hfields : pr.1.initialState = e.initialState ∧ pr.1.snapshots = e.snapshots := by
        split_ifs at hF <;> exact setIndexOp_fields e _ pr hF
      exact ⟨by rw [hfields.1]; exact hinit, by rw [hfields.2]; exact hsnaps⟩

lemma runOps_seedFixedInv {V : Type} [DecidableEq V] (cfg : Config) (P : PRNGModel V)
    (hfix : cfg.regenSeed = .fixedSeed) (seed0 : Int) :
    ∀ (ops : List EngineOp) (e : Engine V), SeedFixedInv seed0 e →
      SeedFixedInv seed0 (runOps cfg P e ops) := by
  intro ops
  induction ops with
  | nil => intro e h; exact h
  | cons op t ih =>
    intro e h
    exact ih _ (runOp_seedFixedInv cfg P hfix seed0 e op h)

lemma initEngine_seedFixedInv {V : Type} (vars : Snap V) (startId : String) (seed0 : Int)
    (ps : List String) : SeedFixedInv seed0 (initEngine vars startId seed0 ps) := by
  constructor
  · show (if "__seed" = "__id" then some (.str startId)
      else if "__seed" = "__seed" then some (.num seed0) else vars "__seed") =
      some (SBVal.num seed0)
    rw [if_neg (by decide), if_pos rfl]
  · intro p hp
    simp only [initEngine, List.mem_singleton] at hp
    subst hp
    rfl

/-- C8 (PRNG seed-regeneration policy; the tiny-prng generator itself is
external and modelled abstractly from the spec).  (1) Under
`regenSeed = "passage"` a `random` read does not change the engine, so
consecutive reads between navigations all return the same value — the
float drawn from the seed resolved at the cursor.  (2) A `navigateTo` from
the end of history stamps the freshly advanced seed into the new snapshot:
the stored seed strictly changes (given that the generator's draw differs
from its input seed) and hence the returned value changes (given that the
generator's float encoding separates the two seeds).  (3) Under
`regenSeed = false` the resolved seed stays at the initially configured
value after every operation sequence, so every read returns the same
value.  (4) Under `regenSeed = "eachCall"` each read writes the
generator's advanced seed back into the current snapshot's `__seed`
metadata. -/
theorem c8_prng_seed_policy {V : Type} [DecidableEq V] (P : PRNGModel V) :
    (∀ (cfg : Config), cfg.regenSeed = .passage → ∀ (e : Engine V),
      (randomRead cfg P e).1 = e ∧
      (randomRead cfg P e).2 = P.floatVal (getStateAtIndex e e.index "__seed")) ∧
    (∀ (cfg : Config) (e : Engine V) (pid : String) (i : Nat) (n : Int),
      cfg.regenSeed = .passage → pid ∈ e.passages →
      e.snapshots.length < cfg.maxStateCount →
      e.index = (i : Int) → i + 1 = e.snapshots.length →
      getStateAtIndex e ((i : Int)) "__seed" = some (.num n) →
      P.next (some (.num n)) ≠ n →
      P.floatVal (some (.num (P.next (some (.num n))))) ≠ P.floatVal (some (.num n)) →
      (navigateTo cfg P e pid).2 = none ∧
      getStateAtIndex (navigateTo cfg P e pid).1 (navigateTo cfg P e pid).1.index "__seed" =
        some (.num (P.next (some (.num n)))) ∧
      getStateAtIndex (navigateTo cfg P e pid).1 (navigateTo cfg P e pid).1.index "__seed" ≠
        getStateAtIndex e ((i : Int)) "__seed" ∧
      (randomRead cfg P (navigateTo cfg P e pid).1).2 ≠ (randomRead cfg P e).2) ∧
    (∀ (cfg : Config), cfg.regenSeed = .fixedSeed →
      ∀ (vars : Snap V) (startId : String) (seed0 : Int) (ps : List String)
        (ops : List EngineOp),
      (∀ (idx : Int),
        getStateAtIndex (runOps cfg P (initEngine vars startId seed0 ps) ops) idx "__seed" =
          some (.num seed0)) ∧
      (randomRead cfg P (runOps cfg P (initEngine vars startId seed0 ps) ops)).2 =
        P.floatVal (some (.num seed0))) ∧
    (∀ (cfg : Config) (e : Engine V) (i : Nat),
      cfg.regenSeed = .eachCall → e.index = (i : Int) → i < e.snapshots.length →
      (randomRead cfg P e).2 = P.floatVal (getStateAtIndex e ((i : Int)) "__seed") ∧
      getSnapshotAtIndexD (randomRead cfg P e).1 ((i : Int)) "__seed" =
        some (.num (P.floatSeed (getStateAtIndex e ((i : Int)) "__seed")))) := by
  refine ⟨?_, ?_, ?_, ?_⟩
  · -- passage mode: reads are pure
    intro cfg hm e
    unfold randomRead
    rw [if_neg (by rw [hm]; decide)]
    exact ⟨rfl, rfl⟩
  · -- passage mode: navigation advances the stored seed
    intro cfg e pid i n hm hp hcap hip hend hnum hP hv
    obtain ⟨s4, hnav, _, hseed4⟩ := navigateTo_append_spec cfg P e pid i hp hcap hip hend
    have hs4seed : s4 "__seed" = some (.num (P.next (some (.num n)))) := by
      rw [hseed4 hm, hnum]
    have hval2 : getStateAtIndex
        ({ e with snapshots := e.snapshots ++ [s4], index := (i : Int) + 1 } : Engine V)
        ((i : Int) + 1) "__seed" = some (.num (P.next (some (.num n)))) := by
      rw [show (i : Int) + 1 = ((i + 1 : Nat) : Int) from by push_cast; ring]
      rw [getStateAtIndex_ofNat _ (i + 1) (by simp; omega)]
      dsimp only
      rw [List.take_of_length_le (by simp; omega)]
      rw [List.foldl_append]
      show applySnap (List.foldl applySnap e.initialState e.snapshots) s4 "__seed" =
        some (SBVal.num (P.next (some (.num n))))
      rw [applySnap_key, hs4seed]
    refine ⟨by rw [hnav], ?_, ?_, ?_⟩
    · rw [hnav]
      exact hval2
    · rw [hnav]
      dsimp only
      rw [hval2, hnum]
      simpa using hP
    · have hrr : ∀ (e' : Engine V), (randomRead cfg P e').2 =
          P.floatVal (getStateAtIndex e' e'.index "__seed") := by
        intro e'
        unfold randomRead
        rw [if_neg (by rw [hm]; decide)]
      rw [hnav]
      dsimp only
      rw [hrr, hrr]
      dsimp only
      rw [hval2, hip, hnum]
      exact hv
  · -- fixed mode: the seed never moves
    intro cfg hfix vars startId seed0 ps ops
    have hinv := runOps_seedFixedInv cfg P hfix seed0 ops _
      (initEngine_seedFixedInv vars startId seed0 ps)
    constructor
    · intro idx
      rw [getStateAtIndex_key_none _ idx "__seed" hinv.2]
      exact hinv.1
    · unfold randomRead
      rw [if_neg (by rw [hfix]; decide)]
      dsimp only
      rw [getStateAtIndex_key_none _ _ "__seed" hinv.2, hinv.1]
  · -- eachCall mode: the advanced seed is written back into the snapshot
    intro cfg e i hm hip hlen
    constructor
    · unfold randomRead
      rw [if_pos hm]
      dsimp only
      rw [hip]
    · obtain ⟨s, hseq, hskey, hsother⟩ := stampAt_eq_set e.snapshots i "__seed"
        (some (.num (P.floatSeed (getStateAtIndex e ((i : Int)) "__seed")))) hlen
      unfold randomRead
      rw [if_pos hm]
      dsimp only
      rw [hip, hseq]
      unfold getSnapshotAtIndexD
      rw [dif_pos ⟨Int.natCast_nonneg i, by
        rw [Int.toNat_natCast]
        dsimp only
        rw [List.length_set]
        exact hlen⟩]
      dsimp only
      rw [show ((e.snapshots.set i s).get ⟨((i : Int)).toNat, by
          rw [Int.toNat_natCast, List.length_set]; exact hlen⟩) = s from by
        simp]
      exact hskey

/-- Witness for C8 with a concrete abstract generator (`movingPrng`) and
concrete engines: reads are pure in passage mode; a navigation from the end
of history strictly advances the stored seed (5 to 6); the fixed policy
pins every read to the configured seed; and an eachCall read writes the
advanced seed back into the cursor snapshot. -/
theorem c8_prng_seed_policy_witness :
    (passageConfig.regenSeed = .passage ∧
      roomyConfig.regenSeed = .fixedSeed ∧
      eachCallConfig.regenSeed = .eachCall ∧
      getStateAtIndex goldEngine (((0 : Nat) : Int)) "__seed" = some (.num 5) ∧
      movingPrng.next (some (.num 5)) ≠ (5 : Int)) ∧
    (randomRead passageConfig movingPrng goldEngine).1 = goldEngine ∧
    (navigateTo passageConfig movingPrng goldEngine "Start").2 = none ∧
    getStateAtIndex (navigateTo passageConfig movingPrng goldEngine "Start").1
        (navigateTo passageConfig movingPrng goldEngine "Start").1.index "__seed" =
      some (.num (movingPrng.next (some (.num 5)))) ∧
    (randomRead roomyConfig movingPrng
        (runOps roomyConfig movingPrng
          (initEngine (fun _ => none) "Start" 7 []) [.randRead])).2 =
      movingPrng.floatVal (some (.num 7)) ∧
    getSnapshotAtIndexD (randomRead eachCallConfig movingPrng goldEngine).1
        (((0 : Nat) : Int)) "__seed" =
      some (.num (movingPrng.floatSeed (getStateAtIndex goldEngine (((0 : Nat) : Int)) "__seed"))) :=
  ⟨⟨rfl, rfl, rfl, by decide, by decide⟩,
    ((c8_prng_seed_policy movingPrng).1 passageConfig rfl goldEngine).1,
    ((c8_prng_seed_policy movingPrng).2.1 passageConfig goldEngine "Start" 0 5 rfl (by decide)
      (by decide) (by decide) (by decide) (by decide) (by decide) (by decide)).1,
    ((c8_prng_seed_policy movingPrng).2.1 passageConfig goldEngine "Start" 0 5 rfl (by decide)
      (by decide) (by decide) (by decide) (by decide) (by decide) (by decide)).2.1,
    ((c8_prng_seed_policy movingPrng).2.2.1 roomyConfig rfl (fun _ => none) "Start" 7 []
      [.randRead]).2,
    ((c8_prng_seed_policy movingPrng).2.2.2 eachCallConfig goldEngine 0 rfl (by decide)
      (by decide)).2⟩

end Sugarbox
